import Mathlib

/-!
goswagreplace: line rewriting of generated go-swagger server files.

A shallow embedding of `cmd/goswagreplace/goswagreplace.go`.

Go strings are modelled as `List Char` (well-formed UTF-8 text, one `Char` per
rune).  String literals of the source are written `"...".toList`.  The
library functions the program calls (`strings.TrimSpace`, `strings.Contains`,
`strings.ReplaceAll`, `fmt.Sprintf` with `%s` verbs) are modelled by the
definitions of the first section; `bufio.Scanner` is modelled by its outcome:
the list of lines it yields (`s.Text()` of each successful `s.Scan()`) and
the value of `s.Err()` once scanning has stopped.

`main` is a function from the flag values and a world (the file system and
the calls made so far) to the world in which it returns.  What it calls
outside the program (`filepath.Join`, `os`, `encoding/json`, the formatter) is
a parameter, `Env`.
-/

namespace Goswagreplace

/-! ## Strings -/

/-- A Go string holding well-formed text. -/
abbrev Str := List Char

/-- Go `unicode.IsSpace`: the Latin-1 spaces `\t \n \v \f \r`, space, U+0085,
U+00A0, and the other code points with the White_Space property. -/
def isSpace (c : Char) : Bool :=
  let n := c.toNat
  (9 ≤ n && n ≤ 13) || n = 0x20 || n = 0x85 || n = 0xA0 || n = 0x1680 ||
  (0x2000 ≤ n && n ≤ 0x200A) || n = 0x2028 || n = 0x2029 || n = 0x202F ||
  n = 0x205F || n = 0x3000

/-- Go `strings.TrimSpace`: the string without its leading and trailing white
space. -/
def TrimSpace (s : Str) : Str :=
  ((s.dropWhile isSpace).reverse.dropWhile isSpace).reverse

/-- Go `strings.HasPrefix s p`. -/
def HasPrefix : Str → Str → Bool
  | _, [] => true
  | [], _ :: _ => false
  | c :: s, d :: p => c == d && HasPrefix s p

/-- Go `strings.Contains s substr`: `substr` occurs somewhere within `s`. -/
def Contains : Str → Str → Bool
  | [], substr => HasPrefix [] substr
  | c :: s, substr => HasPrefix (c :: s) substr || Contains s substr

/-- The scanning loop of `strings.ReplaceAll` for a non-empty `old`: `skip`
counts the characters of the current match that are still to be passed over.
Matches are taken leftmost first and do not overlap. -/
def replaceFrom (old new : Str) : Nat → Str → Str
  | _, [] => []
  | skip + 1, _ :: s => replaceFrom old new skip s
  | 0, c :: s =>
    if HasPrefix (c :: s) old then new ++ replaceFrom old new (old.length - 1) s
    else c :: replaceFrom old new 0 s

/-- Go `strings.ReplaceAll s old new`.  An empty `old` matches before every
rune and at the end of the string. -/
def ReplaceAll (s old new : Str) : Str :=
  if old = [] then new ++ s.flatMap (fun c => c :: new)
  else replaceFrom old new 0 s

/-! ## Configuration -/

/-- The `Replacement` struct: one renaming rule of the configuration. -/
structure Replacement where
  FromOperationId : Str
  ToOperationId : Str
  ToPackageAlias : Str
  ToPackage : Str
  deriving DecidableEq

/-- The `Config` struct: the rules in the order of the configuration file. -/
structure Config where
  Replacements : List Replacement
  deriving DecidableEq

/-! ## The format strings of the rewriters -/

/-- `fmt.Sprintf("\t%s \"%s\"\n", i.ToPackageAlias, i.ToPackage)`. -/
def importLine (i : Replacement) : Str :=
  "\t".toList ++ i.ToPackageAlias ++ " \"".toList ++ i.ToPackage ++ "\"\n".toList

/-- `fmt.Sprintf("%sHandler %sHandler", i.FromOperationId, i.FromOperationId)`. -/
def fieldFrom (i : Replacement) : Str :=
  i.FromOperationId ++ "Handler ".toList ++ i.FromOperationId ++ "Handler".toList

/-- `fmt.Sprintf("\t%sHandler %s.%sHandler", i.FromOperationId,
i.ToPackageAlias, i.ToOperationId)`. -/
def fieldTo (i : Replacement) : Str :=
  "\t".toList ++ i.FromOperationId ++ "Handler ".toList ++ i.ToPackageAlias ++
    ".".toList ++ i.ToOperationId ++ "Handler".toList

/-- `fmt.Sprintf("%sHandler: %sHandlerFunc(func(params %sParams)
middleware.Responder {", ...)` with `i.FromOperationId` three times. -/
def funcFrom (i : Replacement) : Str :=
  i.FromOperationId ++ "Handler: ".toList ++ i.FromOperationId ++
    "HandlerFunc(func(params ".toList ++ i.FromOperationId ++
    "Params) middleware.Responder \x7b".toList

/-- `fmt.Sprintf("\t\t%sHandler: %s.%sHandlerFunc(func(params %s.%sParams)
middleware.Responder {", i.FromOperationId, i.ToPackageAlias, i.ToOperationId,
i.ToPackageAlias, i.ToOperationId)`. -/
def funcTo (i : Replacement) : Str :=
  "\t\t".toList ++ i.FromOperationId ++ "Handler: ".toList ++ i.ToPackageAlias ++
    ".".toList ++ i.ToOperationId ++ "HandlerFunc(func(params ".toList ++
    i.ToPackageAlias ++ ".".toList ++ i.ToOperationId ++
    "Params) middleware.Responder \x7b".toList

/-- `fmt.Sprintf("New%s(o.context, o.%sHandler)", i.FromOperationId,
i.FromOperationId)`. -/
def routeFrom (i : Replacement) : Str :=
  "New".toList ++ i.FromOperationId ++ "(o.context, o.".toList ++
    i.FromOperationId ++ "Handler)".toList

/-- `fmt.Sprintf("%s.New%s(o.context, o.%sHandler)", i.ToPackageAlias,
i.ToOperationId, i.FromOperationId)`. -/
def routeTo (i : Replacement) : Str :=
  i.ToPackageAlias ++ ".New".toList ++ i.ToOperationId ++
    "(o.context, o.".toList ++ i.FromOperationId ++ "Handler)".toList

/-- `fmt.Sprintf("api.%sHandler = %s.%sHandlerFunc", i.FromOperationId,
apiPackage, i.FromOperationId)`. -/
def configureMatch (apiPackage : Str) (i : Replacement) : Str :=
  "api.".toList ++ i.FromOperationId ++ "Handler = ".toList ++ apiPackage ++
    ".".toList ++ i.FromOperationId ++ "HandlerFunc".toList

/-- `fmt.Sprintf("%s.%s", apiPackage, i.FromOperationId)`. -/
def configureFrom (apiPackage : Str) (i : Replacement) : Str :=
  apiPackage ++ ".".toList ++ i.FromOperationId

/-- `fmt.Sprintf("%s.%s", i.ToPackageAlias, i.ToOperationId)`. -/
def configureTo (i : Replacement) : Str :=
  i.ToPackageAlias ++ ".".toList ++ i.ToOperationId

/-- The import-block opening token `"import ("`. -/
def importOpen : Str := "import (".toList

/-! ## rewriteApi -/

/-- The first `if` of the rule loop of `rewriteApi` (handler field). -/
def apiField (str : Str) (i : Replacement) : Str :=
  if TrimSpace str = fieldFrom i then fieldTo i else str

/-- The second `if` of the rule loop of `rewriteApi` (handler func). -/
def apiFunc (str : Str) (i : Replacement) : Str :=
  if TrimSpace str = funcFrom i then funcTo i else str

/-- The third `if` of the rule loop of `rewriteApi` (route registration). -/
def apiRoute (str : Str) (i : Replacement) : Str :=
  if Contains str (routeFrom i) then ReplaceAll str (routeFrom i) (routeTo i)
  else str

/-- One iteration of `for _, i := range c.Replacements` in the `else` branch
of `rewriteApi`: the three tests in sequence on the working copy `str`. -/
def apiRule (str : Str) (i : Replacement) : Str :=
  apiRoute (apiFunc (apiField str i) i) i

/-- The import lines written after an import marker: one `importLine` per rule,
in the order of `c.Replacements`. -/
def importBlock (c : Config) : Str :=
  c.Replacements.foldl (fun o i => o ++ importLine i) []

/-- The body of `for s.Scan()` in `rewriteApi`: the bytes appended to the
buffer `o` for the scanned line `str`. -/
def apiEmit (c : Config) (str : Str) : Str :=
  if TrimSpace str = importOpen then
    str ++ ['\n'] ++ importBlock c
  else
    c.Replacements.foldl apiRule str ++ ['\n']

/-- The buffer `o` of `rewriteApi` once the lines `lines` have been scanned. -/
def apiBuffer (c : Config) (lines : List Str) : Str :=
  lines.foldl (fun o str => o ++ apiEmit c str) []

/-! ## rewriteConfigure -/

/-- One iteration of `for _, i := range c.Replacements` in the `else` branch
of `rewriteConfigure`. -/
def configureRule (apiPackage : Str) (str : Str) (i : Replacement) : Str :=
  if Contains str (configureMatch apiPackage i) then
    ReplaceAll str (configureFrom apiPackage i) (configureTo i)
  else str

/-- The body of `for s.Scan()` in `rewriteConfigure`: the bytes appended to
the buffer `o` for the scanned line `str`. -/
def configureEmit (c : Config) (apiPackage : Str) (str : Str) : Str :=
  if TrimSpace str = importOpen then
    str ++ ['\n'] ++ importBlock c
  else
    c.Replacements.foldl (configureRule apiPackage) str ++ ['\n']

/-- The buffer `o` of `rewriteConfigure` once `lines` have been scanned. -/
def configureBuffer (c : Config) (apiPackage : Str) (lines : List Str) : Str :=
  lines.foldl (fun o str => o ++ configureEmit c apiPackage str) []

/-! ## Scanning and writing -/

/-- The outcome of running the `bufio.Scanner` over the input file: the lines
it yielded and the value of `s.Err()` after the loop. -/
structure Scan where
  lines : List Str
  err : Option Str

/-- The behaviour of the destination file: how many bytes `o.WriteTo(out)`
stores and the error it reports, and the error `out.Sync()` reports. -/
structure Dest where
  accepted : Nat
  writeErr : Option Str
  syncErr : Option Str

/-- What a rewriter leaves behind: the error it returns (`none` for `nil`) and
the bytes the destination file has received. -/
structure Outcome where
  err : Option Str
  written : Str

/-- The part of `rewriteApi` and `rewriteConfigure` after the scanning loop,
for the buffer `o`.  Both `write file failed` messages format `s.Err()`,
which is `nil` on these paths. -/
def finish (s : Scan) (out : Dest) (o : Str) : Outcome :=
  match s.err with
  | some e => ⟨some ("read file failed: ".toList ++ e), []⟩
  | none =>
    match out.writeErr with
    | some _ => ⟨some "write file failed: %!s(<nil>)".toList, o.take out.accepted⟩
    | none =>
      match out.syncErr with
      | some _ => ⟨some "write file failed: %!s(<nil>)".toList, o⟩
      | none => ⟨none, o⟩

/-- The function `rewriteApi(in, out, c)`. -/
def rewriteApi (s : Scan) (out : Dest) (c : Config) : Outcome :=
  finish s out (apiBuffer c s.lines)

/-- The function `rewriteConfigure(in, out, c, apiPackage)`. -/
def rewriteConfigure (s : Scan) (out : Dest) (c : Config) (apiPackage : Str) : Outcome :=
  finish s out (configureBuffer c apiPackage s.lines)

/-! ## Vocabulary of the specification -/

/-- An identifier character: an ASCII letter, a digit or the underscore. -/
def isIdentChar (c : Char) : Bool :=
  let n := c.toNat
  (48 ≤ n && n ≤ 57) || (65 ≤ n && n ≤ 90) || (97 ≤ n && n ≤ 122) || n = 95

/-- An identifier: a non-empty string of identifier characters. -/
def isIdent (s : Str) : Bool :=
  !s.isEmpty && s.all isIdentChar

/-- The rule whose three names are identifiers. -/
def identRule (i : Replacement) : Bool :=
  isIdent i.FromOperationId && isIdent i.ToOperationId && isIdent i.ToPackageAlias

/-- The line matches pattern 2, 3 or 4 of the rule: its trimmed text is the
handler-field or the handler-func pattern, or it holds the route pattern. -/
def matchesRule (str : Str) (i : Replacement) : Bool :=
  decide (TrimSpace str = fieldFrom i) || decide (TrimSpace str = funcFrom i) ||
    Contains str (routeFrom i)

/-- The constructor name `New<to>` that the rule writes ends with the name
`New<from>` that it looks for (as it does when `to` is `from`). -/
def reopens (i : Replacement) : Bool :=
  List.isSuffixOf ("New".toList ++ i.FromOperationId) ("New".toList ++ i.ToOperationId)

/-- The first `if` of the rule loop is taken for the line `str`. -/
def fieldFires (str : Str) (i : Replacement) : Bool :=
  decide (TrimSpace str = fieldFrom i)

/-- The second `if` of the rule loop is taken: its test is made on the working
copy that the first `if` has left. -/
def funcFires (str : Str) (i : Replacement) : Bool :=
  decide (TrimSpace (apiField str i) = funcFrom i)

/-- The third `if` of the rule loop is taken: its test is made on the working
copy that the first two have left. -/
def routeFires (str : Str) (i : Replacement) : Bool :=
  Contains (apiFunc (apiField str i) i) (routeFrom i)

/-- The number of rewrites applied to the line `str` in the iteration of the
rule `i`. -/
def rewritesApplied (str : Str) (i : Replacement) : Nat :=
  (fieldFires str i).toNat + (funcFires str i).toNat + (routeFires str i).toNat

/-- The rule of the examples: `V2Onboarding` to `onboarding.Onboarding`. -/
def onboardingRule : Replacement :=
  ⟨"V2Onboarding".toList, "Onboarding".toList, "onboarding".toList, "app/onboarding".toList⟩

/-! ## main -/

/-- The command-line flags of `main` after `flag.Parse()`. -/
structure Flags where
  config : Str
  target : Str
  serverPackage : Str
  appName : Str
  apiPackage : Str
  goFmtCmd : Str
  goFmtArg : Str

/-- The file handles of `main`, named as its variables. -/
inductive Handle where
  | configFile
  | apiFile
  | apiTmpFile
  | configureFile
  | configureTmpFile
  deriving DecidableEq

/-- The file system: the content of the file at each path, if there is one. -/
abbrev FS := Str → Option Str

/-- What `main` does to the outside: the calls it makes on files, on the
formatter and on standard output, in the order it makes them, whether they
succeed or fail; `ok` tells whether an open or a create gave a handle. -/
inductive Event where
  | print (line : Str)
  | openFile (h : Handle) (path : Str) (ok : Bool)
  | create (h : Handle) (path : Str) (ok : Bool)
  | read (h : Handle)
  | write (h : Handle)
  | sync (h : Handle)
  | run (cmd arg file1 file2 : Str)
  | rename (src dst : Str)
  | close (h : Handle)
  deriving DecidableEq

/-- The `return` by which `main` ends, named after the step that failed. -/
inductive Exit where
  | noName
  | openConfig
  | openApi
  | createApiTmp
  | openConfigure
  | createConfigureTmp
  | loadConfig
  | rewriteApi
  | rewriteConfigure
  | gofmt
  | renameApi
  | renameConfigure
  | success
  deriving DecidableEq

/-- The library and the outside world that `main` runs against:
`filepath.Join`, the errors the operating system reports for a path,
`ioutil.ReadAll` and `json.Unmarshal`, the `bufio.Scanner` over the content of
a file, the behaviour of a destination file, the formatter command (the error
of `fmtCmd.Run()` and the file system it leaves), and the error of
`os.Rename`. -/
structure Env where
  join : List Str → Str
  openErr : Str → Option Str
  createErr : Str → Option Str
  readAllErr : Option Str
  unmarshal : Str → Except Str Config
  scan : Str → Scan
  dest : Str → Dest
  gofmt : Str → Str → Str → Str → FS → Option Str × FS
  renameErr : Str → Str → Option Str

/-- The file system and the calls made so far. -/
structure World where
  fs : FS
  trace : List Event

/-- The state in which `main` returns. -/
structure Run where
  fs : FS
  trace : List Event
  exit : Exit

/-- The file system with the file at `path` set to `v`. -/
def setFile (fs : FS) (path : Str) (v : Option Str) : FS :=
  fun q => if q = path then v else fs q

/-- `os.OpenFile(path, os.O_RDONLY, 0666)`: the error, if any.  A file that
is not there cannot be opened. -/
def OpenFile (env : Env) (fs : FS) (path : Str) : Option Str :=
  match fs path with
  | none => some ("open ".toList ++ path ++ ": no such file or directory".toList)
  | some _ => env.openErr path

/-- `os.Create(path)`: the error, if any, and the file system, in which the
file is empty on success. -/
def Create (env : Env) (fs : FS) (path : Str) : Option Str × FS :=
  match env.createErr path with
  | some e => (some e, fs)
  | none => (none, setFile fs path (some []))

/-- `os.Rename(src, dst)`: the error, if any, and the file system.  A rename
that fails changes nothing; one that succeeds puts the content of `src` at
`dst` and leaves no file at `src`. -/
def Rename (env : Env) (fs : FS) (src dst : Str) : Option Str × FS :=
  match fs src with
  | none =>
    (some ("rename ".toList ++ src ++ " ".toList ++ dst ++
      ": no such file or directory".toList), fs)
  | some content =>
    match env.renameErr src dst with
    | some e => (some e, fs)
    | none => (none, fun q => if q = dst then some content else if q = src then none else fs q)

/-- The function `loadConfig(f)` on the content of the file `f`. -/
def loadConfig (env : Env) (content : Str) : Except Str Config :=
  match env.readAllErr with
  | some e => Except.error e
  | none => env.unmarshal content

/-- The file at `path` after a fresh handle on it has received `bytes`: they
overwrite the file from its start. -/
def received (fs : FS) (path : Str) (bytes : Str) : FS :=
  setFile fs path (some (bytes ++ ((fs path).getD []).drop bytes.length))

/-- The calls a rewriter makes on its two handles: it reads the input, writes
the buffer if the scan reported no error, and syncs if the write reported
none. -/
def rewriteEvents (hin hout : Handle) (s : Scan) (out : Dest) : List Event :=
  Event.read hin ::
    match s.err with
    | some _ => []
    | none =>
      Event.write hout ::
        match out.writeErr with
        | some _ => []
        | none => [Event.sync hout]

/-- A `return` of `main`: the lines printed before it, then the deferred
`Close()` calls, last deferred first. -/
def leave (w : World) (printed : List Str) (deferred : List Handle) (e : Exit) : Run :=
  ⟨w.fs, w.trace ++ printed.map Event.print ++ deferred.map Event.close, e⟩

/-- The name `apiFileName` of `main`. -/
def apiFileName (env : Env) (f : Flags) : Str :=
  env.join [f.target, f.serverPackage, f.apiPackage, f.appName ++ "_api.go".toList]

/-- The name `apiTmpFileName` of `main`. -/
def apiTmpFileName (env : Env) (f : Flags) : Str :=
  apiFileName env f ++ ".tmp".toList

/-- The name `configureFileName` of `main`. -/
def configureFileName (env : Env) (f : Flags) : Str :=
  env.join [f.target, f.serverPackage, "configure_".toList ++ f.appName ++ ".go".toList]

/-- The name `configureTmpFileName` of `main`. -/
def configureTmpFileName (env : Env) (f : Flags) : Str :=
  env.join [f.target, f.serverPackage, "configure_".toList ++ f.appName ++ ".go.tmp".toList]

/-- The part of `main` from the formatter on (lines 109 to 132), with the five
deferred calls pending. -/
def formatAndRename (env : Env) (f : Flags) (w : World) (deferred : List Handle) : Run :=
  let w : World := ⟨w.fs, w.trace ++ [Event.run f.goFmtCmd f.goFmtArg
    (apiTmpFileName env f) (configureTmpFileName env f)]⟩
  let fmt := env.gofmt f.goFmtCmd f.goFmtArg (apiTmpFileName env f)
    (configureTmpFileName env f) w.fs
  let w : World := ⟨fmt.2, w.trace⟩
  match fmt.1 with
  | some err => leave w ["gofmt command failed: ".toList ++ err] deferred Exit.gofmt
  | none =>
    let w : World := ⟨w.fs,
      w.trace ++ [Event.rename (apiTmpFileName env f) (apiFileName env f)]⟩
    let r1 := Rename env w.fs (apiTmpFileName env f) (apiFileName env f)
    let w : World := ⟨r1.2, w.trace⟩
    match r1.1 with
    | some err => leave w ["update api file failed: ".toList ++ err] deferred Exit.renameApi
    | none =>
      let w : World := ⟨w.fs,
        w.trace ++ [Event.rename (configureTmpFileName env f) (configureFileName env f)]⟩
      let r2 := Rename env w.fs (configureTmpFileName env f) (configureFileName env f)
      let w : World := ⟨r2.2, w.trace⟩
      match r2.1 with
      | some err =>
        leave w ["update configure file failed: ".toList ++ err] deferred Exit.renameConfigure
      | none =>
        leave w ["===== REWRITE SUCCESSFUL =====".toList, apiFileName env f,
          configureFileName env f] deferred Exit.success

/-- The part of `main` from `loadConfig` to the second rewrite (lines 90 to
107), with the five deferred calls pending. -/
def loadAndRewrite (env : Env) (f : Flags) (w : World) (deferred : List Handle) : Run :=
  let w : World := ⟨w.fs, w.trace ++ [Event.read Handle.configFile]⟩
  match loadConfig env ((w.fs f.config).getD []) with
  | Except.error err => leave w ["load configure file failed: ".toList ++ err] deferred
      Exit.loadConfig
  | Except.ok conf =>
    let s1 := env.scan ((w.fs (apiFileName env f)).getD [])
    let d1 := env.dest (apiTmpFileName env f)
    let r1 := rewriteApi s1 d1 conf
    let w : World := ⟨received w.fs (apiTmpFileName env f) r1.written,
      w.trace ++ rewriteEvents Handle.apiFile Handle.apiTmpFile s1 d1⟩
    match r1.err with
    | some err => leave w ["rewrite api file failed: ".toList ++ err] deferred Exit.rewriteApi
    | none =>
      let s2 := env.scan ((w.fs (configureFileName env f)).getD [])
      let d2 := env.dest (configureTmpFileName env f)
      let r2 := rewriteConfigure s2 d2 conf f.apiPackage
      let w : World := ⟨received w.fs (configureTmpFileName env f) r2.written,
        w.trace ++ rewriteEvents Handle.configureFile Handle.configureTmpFile s2 d2⟩
      match r2.err with
      | some err =>
        leave w ["rewrite configure file failed: ".toList ++ err] deferred Exit.rewriteConfigure
      | none => formatAndRename env f w deferred

/-- The function `main`, from the flag values and the world it starts in.
The deferred calls are listed last deferred first; the fourth `defer` names
`configFile`, as the source does. -/
def mainRun (env : Env) (f : Flags) (w : World) : Run :=
  if f.appName = [] then
    leave w ["--name flag is required".toList] [] Exit.noName
  else
    let o1 := OpenFile env w.fs f.config
    let w : World :=
      ⟨w.fs, w.trace ++ [Event.openFile Handle.configFile f.config o1.isNone]⟩
    match o1 with
    | some err => leave w ["open config file failed: ".toList ++ err] [] Exit.openConfig
    | none =>
      let o2 := OpenFile env w.fs (apiFileName env f)
      let w : World :=
        ⟨w.fs, w.trace ++ [Event.openFile Handle.apiFile (apiFileName env f) o2.isNone]⟩
      match o2 with
      | some err => leave w ["open api file failed: ".toList ++ err] [Handle.configFile]
          Exit.openApi
      | none =>
        let c1 := Create env w.fs (apiTmpFileName env f)
        let w : World := ⟨c1.2,
          w.trace ++ [Event.create Handle.apiTmpFile (apiTmpFileName env f) c1.1.isNone]⟩
        match c1.1 with
        | some err => leave w ["open api temp file failed: ".toList ++ err]
            [Handle.apiFile, Handle.configFile] Exit.createApiTmp
        | none =>
          let o3 := OpenFile env w.fs (configureFileName env f)
          let w : World := ⟨w.fs, w.trace ++
            [Event.openFile Handle.configureFile (configureFileName env f) o3.isNone]⟩
          match o3 with
          | some err => leave w ["open configure file failed: ".toList ++ err]
              [Handle.apiTmpFile, Handle.apiFile, Handle.configFile] Exit.openConfigure
          | none =>
            let c2 := Create env w.fs (configureTmpFileName env f)
            let w : World := ⟨c2.2, w.trace ++
              [Event.create Handle.configureTmpFile (configureTmpFileName env f) c2.1.isNone]⟩
            match c2.1 with
            | some err => leave w ["open configure temp file failed: ".toList ++ err]
                [Handle.configFile, Handle.apiTmpFile, Handle.apiFile, Handle.configFile]
                Exit.createConfigureTmp
            | none =>
              loadAndRewrite env f w
                [Handle.configureTmpFile, Handle.configFile, Handle.apiTmpFile,
                  Handle.apiFile, Handle.configFile]

/-- The handles that are open when `main` has returned: those that an open or
a create has given and that no `Close()` has been called on. -/
def openAtExit (r : Run) : List Handle :=
  [Handle.configFile, Handle.apiFile, Handle.apiTmpFile, Handle.configureFile,
    Handle.configureTmpFile].filter (fun h =>
      r.trace.any (fun e => match e with
        | Event.openFile h2 _ ok => ok && decide (h2 = h)
        | Event.create h2 _ ok => ok && decide (h2 = h)
        | _ => false) &&
      !r.trace.contains (Event.close h))

/-! ## A small world to run `main` in -/

/-- The function `dropCR` of `bufio`: the line without a trailing carriage
return. -/
def dropCR (s : Str) : Str :=
  if s.getLast? = some '\r' then s.dropLast else s

/-- The lines `bufio.ScanLines` yields for `text`, `cur` being the line read
so far. -/
def scanLinesFrom : Str → Str → List Str
  | cur, [] => if cur = [] then [] else [dropCR cur]
  | cur, c :: s =>
    if c = '\n' then dropCR cur :: scanLinesFrom [] s else scanLinesFrom (cur ++ [c]) s

/-- A scanner for a text that is read without error and has no overlong
line. -/
def scanLines (text : Str) : Scan :=
  ⟨scanLinesFrom [] text, none⟩

/-- An environment in which every file can be opened, created and written,
the configuration holds the rule of the examples, paths are joined with `/`,
and the formatter changes no file; its error and the error of a rename are
left to choose. -/
def sampleEnv (fmtErr : Option Str) (renameErr : Str → Str → Option Str) : Env where
  join := List.intercalate "/".toList
  openErr := fun _ => none
  createErr := fun _ => none
  readAllErr := none
  unmarshal := fun _ => Except.ok ⟨[onboardingRule]⟩
  scan := scanLines
  dest := fun _ => ⟨0, none, none⟩
  gofmt := fun _ _ _ _ fs => (fmtErr, fs)
  renameErr := renameErr

/-- The flags `--name app --target gen`, the others at their defaults. -/
def sampleFlags : Flags :=
  ⟨"config.json".toList, "gen".toList, "restapi".toList, "app".toList, "operations".toList,
    "gofmt".toList, "-w".toList⟩

/-- A file system with a configuration, an API file and a configure file. -/
def sampleFS : FS := fun p =>
  if p = "config.json".toList then some "\x7b\x7d".toList
  else if p = "gen/restapi/operations/app_api.go".toList then
    some "import (\n\tV2OnboardingHandler V2OnboardingHandler\n".toList
  else if p = "gen/restapi/configure_app.go".toList then some "import (\n".toList
  else none

/-! ## Lemmas on strings -/

theorem hasPrefix_iff (s p : Str) : HasPrefix s p = true ↔ p <+: s := by
  induction p generalizing s with
  | nil => simp [HasPrefix]
  | cons d p ih =>
    cases s with
    | nil => simp [HasPrefix]
    | cons c s =>
      simp only [HasPrefix, Bool.and_eq_true, beq_iff_eq, ih, List.cons_prefix_cons]
      constructor
      · rintro ⟨h, h2⟩; exact ⟨h.symm, h2⟩
      · rintro ⟨h, h2⟩; exact ⟨h.symm, h2⟩

theorem contains_iff (s sub : Str) : Contains s sub = true ↔ sub <:+: s := by
  induction s with
  | nil =>
    cases sub with
    | nil => simp [Contains, HasPrefix]
    | cons d p => simp [Contains, HasPrefix]
  | cons c s ih =>
    rw [Contains, Bool.or_eq_true, hasPrefix_iff, ih, List.infix_cons_iff]

theorem contains_false_iff (s sub : Str) : Contains s sub = false ↔ ¬ sub <:+: s := by
  rw [← contains_iff]; simp

theorem identChar_not_space {c : Char} (h : isIdentChar c = true) : isSpace c = false := by
  simp only [isIdentChar, isSpace, Bool.or_eq_true, Bool.and_eq_true, decide_eq_true_eq,
    Bool.or_eq_false_iff, Bool.and_eq_false_iff, decide_eq_false_iff_not] at *
  omega

theorem dropWhile_space_all {s : Str} (h : ∀ c ∈ s, isSpace c = true) :
    s.dropWhile isSpace = [] := by
  induction s with
  | nil => rfl
  | cons c s ih =>
    rw [List.dropWhile_cons_of_pos (h c (List.mem_cons_self _ _))]
    exact ih (fun d hd => h d (List.mem_cons_of_mem _ hd))

theorem dropWhile_space_head {s : Str} (h : ∀ c ∈ s.head?, isSpace c = false) :
    s.dropWhile isSpace = s := by
  cases s with
  | nil => rfl
  | cons c s =>
    have hc : isSpace c = false := h c (by simp)
    simp [List.dropWhile_cons, hc]

/-- Trimming a string made of white space, a core that neither starts nor ends
with white space, and white space again, leaves the core. -/
theorem trimSpace_frame (l core r : Str) (hl : ∀ c ∈ l, isSpace c = true)
    (hr : ∀ c ∈ r, isSpace c = true) (hh : ∀ c ∈ core.head?, isSpace c = false)
    (ht : ∀ c ∈ core.getLast?, isSpace c = false) :
    TrimSpace (l ++ core ++ r) = core := by
  unfold TrimSpace
  rw [List.append_assoc, List.dropWhile_append_of_pos hl]
  cases core with
  | nil =>
    simp only [List.nil_append]
    rw [dropWhile_space_all hr]; rfl
  | cons c t =>
    have h1 : ((c :: t) ++ r).dropWhile isSpace = (c :: t) ++ r :=
      dropWhile_space_head (by simpa using hh)
    rw [h1, List.reverse_append, List.dropWhile_append_of_pos (by simpa using hr)]
    rw [dropWhile_space_head (s := (c :: t).reverse) (by rw [List.head?_reverse]; exact ht)]
    exact List.reverse_reverse _

theorem trimSpace_of_core (core : Str) (hh : ∀ c ∈ core.head?, isSpace c = false)
    (ht : ∀ c ∈ core.getLast?, isSpace c = false) : TrimSpace core = core := by
  simpa using trimSpace_frame [] core [] (by simp) (by simp) hh ht

theorem infix_dropWhile_space {sub s : Str} (h : sub <:+: s)
    (hh : ∃ c ∈ sub.head?, isSpace c = false) : sub <:+: s.dropWhile isSpace := by
  induction s with
  | nil => simpa using h
  | cons c s ih =>
    by_cases hc : isSpace c = true
    · rw [List.dropWhile_cons_of_pos hc]
      rcases List.infix_cons_iff.1 h with hp | hi
      · exfalso
        obtain ⟨d, hd, hds⟩ := hh
        cases sub with
        | nil => simp at hd
        | cons e sub =>
          simp only [List.head?_cons, Option.mem_def, Option.some.injEq] at hd
          rw [List.cons_prefix_cons] at hp
          rw [← hd, hp.1, hc] at hds
          exact Bool.noConfusion hds
      · exact ih hi
    · rw [List.dropWhile_cons_of_neg hc]; exact h

/-- A substring that neither starts nor ends with white space survives
trimming. -/
theorem infix_trimSpace {sub s : Str} (h : sub <:+: s)
    (hh : ∃ c ∈ sub.head?, isSpace c = false)
    (ht : ∃ c ∈ sub.getLast?, isSpace c = false) : sub <:+: TrimSpace s := by
  unfold TrimSpace
  rw [← List.reverse_infix, List.reverse_reverse]
  apply infix_dropWhile_space
  · rw [List.reverse_infix]; exact infix_dropWhile_space h hh
  · rw [List.head?_reverse]; exact ht

theorem ident_ne_nil {s : Str} (h : isIdent s = true) : s ≠ [] := by
  intro hs; subst hs; simp [isIdent] at h

theorem ident_all {s : Str} (h : isIdent s = true) : ∀ c ∈ s, isIdentChar c = true := by
  simp only [isIdent, Bool.and_eq_true, List.all_eq_true] at h
  exact h.2

theorem ident_not_mem {s : Str} (h : isIdent s = true) {c : Char}
    (hc : isIdentChar c = false) : c ∉ s := by
  intro hm
  rw [ident_all h c hm] at hc
  exact Bool.noConfusion hc

theorem ident_head {s : Str} (h : isIdent s = true) (t : Str) :
    ∀ c ∈ (s ++ t).head?, isSpace c = false := by
  cases s with
  | nil => exact absurd rfl (ident_ne_nil h)
  | cons d s =>
    intro c hc
    simp only [List.cons_append, List.head?_cons, Option.mem_def, Option.some.injEq] at hc
    subst hc
    exact identChar_not_space (ident_all h _ (List.mem_cons_self _ _))

theorem identRule_from {r : Replacement} (h : identRule r = true) :
    isIdent r.FromOperationId = true := by
  simp only [identRule, Bool.and_eq_true] at h; exact h.1.1

theorem identRule_to {r : Replacement} (h : identRule r = true) :
    isIdent r.ToOperationId = true := by
  simp only [identRule, Bool.and_eq_true] at h; exact h.1.2

theorem identRule_alias {r : Replacement} (h : identRule r = true) :
    isIdent r.ToPackageAlias = true := by
  simp only [identRule, Bool.and_eq_true] at h; exact h.2

theorem last_append_lit (l t : Str) (x : Char) (hx : t.getLast? = some x)
    (hs : isSpace x = false) : ∀ c ∈ (l ++ t).getLast?, isSpace c = false := by
  intro c hc
  rw [List.getLast?_append, hx] at hc
  simp only [Option.or, Option.mem_def, Option.some.injEq] at hc
  subst hc; exact hs

/-- What `TrimSpace` makes of the rewritten handler-field line. -/
theorem trimSpace_fieldTo {r : Replacement} (h : identRule r = true) :
    TrimSpace (fieldTo r) = r.FromOperationId ++ "Handler ".toList ++ r.ToPackageAlias ++
      ".".toList ++ r.ToOperationId ++ "Handler".toList := by
  have := trimSpace_frame "\t".toList (r.FromOperationId ++ ("Handler ".toList ++
    r.ToPackageAlias ++ ".".toList ++ r.ToOperationId ++ "Handler".toList)) []
    (by simp [isSpace]) (by simp) (ident_head (identRule_from h) _)
    (by
      have := last_append_lit (r.FromOperationId ++ "Handler ".toList ++
        r.ToPackageAlias ++ ".".toList ++ r.ToOperationId) "Handler".toList 'r' (by rfl) (by decide)
      simpa using this)
  simpa [fieldTo] using this

/-- What `TrimSpace` makes of the rewritten handler-func line. -/
theorem trimSpace_funcTo {r : Replacement} (h : identRule r = true) :
    TrimSpace (funcTo r) = r.FromOperationId ++ "Handler: ".toList ++ r.ToPackageAlias ++
      ".".toList ++ r.ToOperationId ++ "HandlerFunc(func(params ".toList ++
      r.ToPackageAlias ++ ".".toList ++ r.ToOperationId ++
      "Params) middleware.Responder \x7b".toList := by
  have := trimSpace_frame "\t\t".toList (r.FromOperationId ++ ("Handler: ".toList ++
    r.ToPackageAlias ++ ".".toList ++ r.ToOperationId ++ "HandlerFunc(func(params ".toList ++
    r.ToPackageAlias ++ ".".toList ++ r.ToOperationId ++
    "Params) middleware.Responder \x7b".toList)) []
    (by simp [isSpace]) (by simp) (ident_head (identRule_from h) _)
    (by
      have := last_append_lit (r.FromOperationId ++ "Handler: ".toList ++
        r.ToPackageAlias ++ ".".toList ++ r.ToOperationId ++ "HandlerFunc(func(params ".toList ++
        r.ToPackageAlias ++ ".".toList ++ r.ToOperationId)
        "Params) middleware.Responder \x7b".toList (Char.ofNat 123) (by rfl) (by decide)
      simpa using this)
  simpa [funcTo] using this

/-- The comma of the route pattern: a line without a comma holds no route
pattern. -/
theorem comma_of_route {r : Replacement} {s : Str} (h : routeFrom r <:+: s) : ',' ∈ s :=
  h.subset (by simp [routeFrom])

theorem fieldTo_no_route {r r2 : Replacement} (h : identRule r = true) :
    Contains (fieldTo r) (routeFrom r2) = false := by
  rw [contains_false_iff]
  intro hi
  have hm := comma_of_route hi
  have h1 := ident_not_mem (identRule_from h) (c := ',') (by decide)
  have h2 := ident_not_mem (identRule_to h) (c := ',') (by decide)
  have h3 := ident_not_mem (identRule_alias h) (c := ',') (by decide)
  simp [fieldTo, h1, h2, h3] at hm

theorem funcTo_no_route {r r2 : Replacement} (h : identRule r = true) :
    Contains (funcTo r) (routeFrom r2) = false := by
  rw [contains_false_iff]
  intro hi
  have hm := comma_of_route hi
  have h1 := ident_not_mem (identRule_from h) (c := ',') (by decide)
  have h2 := ident_not_mem (identRule_to h) (c := ',') (by decide)
  have h3 := ident_not_mem (identRule_alias h) (c := ',') (by decide)
  simp [funcTo, h1, h2, h3] at hm

theorem fieldFrom_ne_importOpen (r : Replacement) : fieldFrom r ≠ importOpen := by
  intro h
  have := congrArg (fun l => l.reverse.head?) h
  simp [fieldFrom, importOpen] at this

theorem funcFrom_ne_importOpen (r : Replacement) : funcFrom r ≠ importOpen := by
  intro h
  have := congrArg (fun l => l.reverse.head?) h
  simp [funcFrom, importOpen] at this

theorem funcFrom_ne_fieldFrom (r : Replacement) : funcFrom r ≠ fieldFrom r := by
  simp [funcFrom, fieldFrom]

/-- C1. Handler-field rewrite: with the single rule `r`, whose names are
identifiers, a line whose trimmed text is `<from>Handler <from>Handler` is
emitted as the one line `\t<from>Handler <alias>.<to>Handler`. -/
theorem handler_field_rewrite (r : Replacement) (line : Str) (hr : identRule r = true)
    (hline : TrimSpace line =
      r.FromOperationId ++ "Handler ".toList ++ r.FromOperationId ++ "Handler".toList) :
    apiEmit ⟨[r]⟩ line =
      "\t".toList ++ r.FromOperationId ++ "Handler ".toList ++ r.ToPackageAlias ++
        ".".toList ++ r.ToOperationId ++ "Handler".toList ++ "\n".toList := by
  have hf : TrimSpace line = fieldFrom r := hline
  have h1 : apiField line r = fieldTo r := by rw [apiField, if_pos hf]
  have h2 : apiFunc (fieldTo r) r = fieldTo r := by
    rw [apiFunc, if_neg]
    rw [trimSpace_fieldTo hr]
    simp [funcFrom]
  have h3 : apiRoute (fieldTo r) r = fieldTo r := by
    rw [apiRoute, fieldTo_no_route hr]; rfl
  have h4 : TrimSpace line ≠ importOpen := by rw [hf]; exact fieldFrom_ne_importOpen r
  rw [apiEmit, if_neg h4]
  simp only [List.foldl_cons, List.foldl_nil, apiRule, h1, h2, h3]
  simp [fieldTo]

set_option maxRecDepth 100000 in
theorem handler_field_rewrite_witness :
    apiEmit ⟨[onboardingRule]⟩ "\tV2OnboardingHandler V2OnboardingHandler".toList =
      "\tV2OnboardingHandler onboarding.OnboardingHandler\n".toList :=
  handler_field_rewrite onboardingRule "\tV2OnboardingHandler V2OnboardingHandler".toList
    (by decide) (by decide)

/-- C4. Handler-func wiring rewrite: with the single rule `r`, whose names are
identifiers, a line whose trimmed text is
`<from>Handler: <from>HandlerFunc(func(params <from>Params) middleware.Responder {`
is emitted as the one line, led by two tabs,
`<from>Handler: <alias>.<to>HandlerFunc(func(params <alias>.<to>Params) middleware.Responder {`. -/
theorem handler_func_rewrite (r : Replacement) (line : Str) (hr : identRule r = true)
    (hline : TrimSpace line =
      r.FromOperationId ++ "Handler: ".toList ++ r.FromOperationId ++
        "HandlerFunc(func(params ".toList ++ r.FromOperationId ++
        "Params) middleware.Responder \x7b".toList) :
    apiEmit ⟨[r]⟩ line =
      "\t\t".toList ++ r.FromOperationId ++ "Handler: ".toList ++ r.ToPackageAlias ++
        ".".toList ++ r.ToOperationId ++ "HandlerFunc(func(params ".toList ++
        r.ToPackageAlias ++ ".".toList ++ r.ToOperationId ++
        "Params) middleware.Responder \x7b".toList ++ "\n".toList := by
  have hf : TrimSpace line = funcFrom r := hline
  have h1 : apiField line r = line := by
    rw [apiField, if_neg]; rw [hf]; exact funcFrom_ne_fieldFrom r
  have h2 : apiFunc line r = funcTo r := by rw [apiFunc, if_pos hf]
  have h3 : apiRoute (funcTo r) r = funcTo r := by
    rw [apiRoute, funcTo_no_route hr]; rfl
  have h4 : TrimSpace line ≠ importOpen := by rw [hf]; exact funcFrom_ne_importOpen r
  rw [apiEmit, if_neg h4]
  simp only [List.foldl_cons, List.foldl_nil, apiRule, h1, h2, h3]
  simp [funcTo]

set_option maxRecDepth 100000 in
theorem handler_func_rewrite_witness :
    apiEmit ⟨[onboardingRule]⟩
      "\t\tV2OnboardingHandler: V2OnboardingHandlerFunc(func(params V2OnboardingParams) middleware.Responder \x7b".toList =
      "\t\tV2OnboardingHandler: onboarding.OnboardingHandlerFunc(func(params onboarding.OnboardingParams) middleware.Responder \x7b\n".toList :=
  handler_func_rewrite onboardingRule
    "\t\tV2OnboardingHandler: V2OnboardingHandlerFunc(func(params V2OnboardingParams) middleware.Responder \x7b".toList
    (by decide) (by decide)

theorem importBlock_eq (c : Config) :
    importBlock c = (c.Replacements.map importLine).flatten := by
  unfold importBlock
  have h : ∀ (l : List Replacement) (o : Str),
      l.foldl (fun o i => o ++ importLine i) o = o ++ (l.map importLine).flatten := by
    intro l
    induction l with
    | nil => intro o; simp
    | cons i l ih => intro o; simp [ih]
  simpa using h c.Replacements []

/-- What the rewriters write for an import marker. -/
theorem emit_marker (c : Config) (line : Str) :
    line ++ ['\n'] ++ importBlock c = line ++ "\n".toList ++
      (c.Replacements.map (fun r =>
        "\t".toList ++ r.ToPackageAlias ++ " \"".toList ++ r.ToPackage ++ "\"".toList ++
          "\n".toList)).flatten := by
  rw [importBlock_eq]
  congr 2
  apply List.map_congr_left
  intro r _
  simp [importLine]

/-- C5. Import-block injection: a line whose trimmed text is the marker
`import (` is emitted unchanged, followed by one line `\t<alias> "<toPackage>"`
per rule in RuleSet order, and by nothing else. -/
theorem import_block_injection (c : Config) (line : Str)
    (hline : TrimSpace line = "import (".toList) :
    apiEmit c line = line ++ "\n".toList ++
      (c.Replacements.map (fun r =>
        "\t".toList ++ r.ToPackageAlias ++ " \"".toList ++ r.ToPackage ++ "\"".toList ++
          "\n".toList)).flatten := by
  have hf : TrimSpace line = importOpen := hline
  rw [apiEmit, if_pos hf]
  exact emit_marker c line

set_option maxRecDepth 100000 in
theorem import_block_injection_witness :
    apiEmit ⟨[onboardingRule, ⟨"A".toList, "B".toList, "pkg".toList, "app/pkg".toList⟩]⟩
      "  import (".toList =
      "  import (\n\tonboarding \"app/onboarding\"\n\tpkg \"app/pkg\"\n".toList :=
  import_block_injection _ "  import (".toList (by decide)

theorem apiRule_of_no_match {str : Str} {r : Replacement} (h2 : TrimSpace str ≠ fieldFrom r)
    (h3 : TrimSpace str ≠ funcFrom r) (h4 : Contains str (routeFrom r) = false) :
    apiRule str r = str := by
  have a1 : apiField str r = str := by rw [apiField, if_neg h2]
  have a2 : apiFunc str r = str := by rw [apiFunc, if_neg h3]
  have a3 : apiRoute str r = str := by rw [apiRoute, h4]; rfl
  rw [apiRule, a1, a2, a3]

/-- C6. No-match pass-through of the API rewriter: a line that is not an import
marker and that matches pattern 2, 3 and 4 of no rule is emitted character for
character. -/
theorem api_pass_through (c : Config) (line : Str)
    (himp : TrimSpace line ≠ "import (".toList)
    (hno : ∀ r ∈ c.Replacements, TrimSpace line ≠ fieldFrom r ∧
      TrimSpace line ≠ funcFrom r ∧ Contains line (routeFrom r) = false) :
    apiEmit c line = line ++ "\n".toList := by
  have hi : TrimSpace line ≠ importOpen := himp
  rw [apiEmit, if_neg hi]
  have h : ∀ l : List Replacement, (∀ r ∈ l, TrimSpace line ≠ fieldFrom r ∧
      TrimSpace line ≠ funcFrom r ∧ Contains line (routeFrom r) = false) →
      l.foldl apiRule line = line := by
    intro l
    induction l with
    | nil => intro _; rfl
    | cons r l ih =>
      intro hl
      obtain ⟨h2, h3, h4⟩ := hl r (List.mem_cons_self _ _)
      rw [List.foldl_cons, apiRule_of_no_match h2 h3 h4]
      exact ih (fun q hq => hl q (List.mem_cons_of_mem _ hq))
  rw [h c.Replacements hno]
  rfl

set_option maxRecDepth 100000 in
theorem api_pass_through_witness :
    apiEmit ⟨[onboardingRule]⟩ "\tV2OffboardingHandler V2OffboardingHandler".toList =
      "\tV2OffboardingHandler V2OffboardingHandler\n".toList :=
  api_pass_through ⟨[onboardingRule]⟩ "\tV2OffboardingHandler V2OffboardingHandler".toList
    (by decide) (by decide)

/-- C7, as the code has it: a configure line that is not an import marker and
contains `api.<from>Handler = <apiPackage>.<from>HandlerFunc` for no rule is
emitted as that one line, unchanged. -/
theorem configure_pass_through (c : Config) (apiPackage line : Str)
    (himp : TrimSpace line ≠ "import (".toList)
    (hno : ∀ r ∈ c.Replacements, Contains line (configureMatch apiPackage r) = false) :
    configureEmit c apiPackage line = line ++ "\n".toList := by
  have hi : TrimSpace line ≠ importOpen := himp
  rw [configureEmit, if_neg hi]
  have h : ∀ l : List Replacement,
      (∀ r ∈ l, Contains line (configureMatch apiPackage r) = false) →
      l.foldl (configureRule apiPackage) line = line := by
    intro l
    induction l with
    | nil => intro _; rfl
    | cons r l ih =>
      intro hl
      have hr : configureRule apiPackage line r = line := by
        rw [configureRule, hl r (List.mem_cons_self _ _)]; rfl
      rw [List.foldl_cons, hr]
      exact ih (fun q hq => hl q (List.mem_cons_of_mem _ hq))
  rw [h c.Replacements hno]
  rfl

set_option maxRecDepth 100000 in
theorem configure_pass_through_witness :
    configureEmit ⟨[onboardingRule]⟩ "operations".toList
      "\tapi.JSONConsumer = runtime.JSONConsumer()".toList =
      "\tapi.JSONConsumer = runtime.JSONConsumer()\n".toList :=
  configure_pass_through ⟨[onboardingRule]⟩ "operations".toList
    "\tapi.JSONConsumer = runtime.JSONConsumer()".toList (by decide) (by decide)

set_option maxRecDepth 100000 in
/-- C7, as stated, fails on an import marker: the line `import (` contains the
configure pattern of no rule, and the configure rewriter emits it followed by
an import line. -/
theorem configure_pass_through_marker :
    (∀ r ∈ [onboardingRule],
      Contains "import (".toList (configureMatch "operations".toList r) = false) ∧
    configureEmit ⟨[onboardingRule]⟩ "operations".toList "import (".toList =
      "import (\n\tonboarding \"app/onboarding\"\n".toList ∧
    configureEmit ⟨[onboardingRule]⟩ "operations".toList "import (".toList ≠
      "import (\n".toList := by
  decide

theorem configureMatch_not_marker {apiPackage line : Str} {r : Replacement}
    (h : Contains line (configureMatch apiPackage r) = true) : TrimSpace line ≠ importOpen := by
  rw [contains_iff] at h
  have hi : configureMatch apiPackage r <:+: TrimSpace line := by
    apply infix_trimSpace h
    · exact ⟨'a', by simp [configureMatch], by decide⟩
    · refine ⟨'c', ?_, by decide⟩
      have : (("api.".toList ++ r.FromOperationId ++ "Handler = ".toList ++ apiPackage ++
        ".".toList ++ r.FromOperationId) ++ "HandlerFunc".toList).getLast? = some 'c' := by
        rw [List.getLast?_append]; rfl
      simpa [configureMatch] using this
  intro heq
  rw [heq] at hi
  have := hi.length_le
  simp [configureMatch, importOpen] at this
  omega

/-- C3. Configure-file rewrite: with the single rule `r`, a line that contains
`api.<from>Handler = <apiPackage>.<from>HandlerFunc` is emitted with every
occurrence of `<apiPackage>.<from>` replaced by `<alias>.<to>`, as
`strings.ReplaceAll` replaces them, and is otherwise unchanged. -/
theorem configure_rewrite (r : Replacement) (apiPackage line : Str)
    (hline : Contains line ("api.".toList ++ r.FromOperationId ++ "Handler = ".toList ++
      apiPackage ++ ".".toList ++ r.FromOperationId ++ "HandlerFunc".toList) = true) :
    configureEmit ⟨[r]⟩ apiPackage line =
      ReplaceAll line (apiPackage ++ ".".toList ++ r.FromOperationId)
        (r.ToPackageAlias ++ ".".toList ++ r.ToOperationId) ++ "\n".toList := by
  have hc : Contains line (configureMatch apiPackage r) = true := hline
  rw [configureEmit, if_neg (configureMatch_not_marker hc)]
  simp only [List.foldl_cons, List.foldl_nil, configureRule, hc, if_true]
  rfl

set_option maxRecDepth 100000 in
theorem configure_rewrite_witness :
    configureEmit ⟨[onboardingRule]⟩ "operations".toList
      "api.V2OnboardingHandler = operations.V2OnboardingHandlerFunc(func(params operations.V2OnboardingParams) middleware.Responder \x7b".toList =
      "api.V2OnboardingHandler = onboarding.OnboardingHandlerFunc(func(params onboarding.OnboardingParams) middleware.Responder \x7b\n".toList :=
  (configure_rewrite onboardingRule "operations".toList
    "api.V2OnboardingHandler = operations.V2OnboardingHandlerFunc(func(params operations.V2OnboardingParams) middleware.Responder \x7b".toList
    (by decide)).trans (by decide)

/-- The route pattern of a rule is longer than its handler-field pattern. -/
theorem route_not_in_field (r : Replacement) : ¬ routeFrom r <:+: fieldFrom r := by
  intro h
  have := h.length_le
  simp [routeFrom, fieldFrom] at this
  omega

/-- The route pattern of a rule does not occur in its handler-func pattern:
counting the letter `x`, the text around the occurrence would hold fewer of
them than the operation id, of which it covers every position. -/
theorem route_not_in_func (r : Replacement) : ¬ routeFrom r <:+: funcFrom r := by
  rintro ⟨X, Y, h⟩
  have hcount := congrArg (List.count 'x') h
  have hlen := congrArg List.length h
  simp only [routeFrom, funcFrom, List.count_append, List.length_append] at hcount hlen
  have c1 : List.count 'x' "New".toList = 0 := by decide
  have c2 : List.count 'x' "(o.context, o.".toList = 1 := by decide
  have c3 : List.count 'x' "Handler)".toList = 0 := by decide
  have c4 : List.count 'x' "Handler: ".toList = 0 := by decide
  have c5 : List.count 'x' "HandlerFunc(func(params ".toList = 0 := by decide
  have c6 : List.count 'x' "Params) middleware.Responder \x7b".toList = 0 := by decide
  have l1 : "New".toList.length = 3 := by decide
  have l2 : "(o.context, o.".toList.length = 14 := by decide
  have l3 : "Handler)".toList.length = 8 := by decide
  have l4 : "Handler: ".toList.length = 9 := by decide
  have l5 : "HandlerFunc(func(params ".toList.length = 24 := by decide
  have l6 : "Params) middleware.Responder \x7b".toList.length = 30 := by decide
  rw [c1, c2, c3, c4, c5, c6] at hcount
  rw [l1, l2, l3, l4, l5, l6] at hlen
  have hX : X <+: funcFrom r := ⟨routeFrom r ++ Y, by rw [← h]; simp⟩
  have hY : Y <:+ funcFrom r := ⟨X ++ routeFrom r, h⟩
  have hF : r.FromOperationId <+: funcFrom r := ⟨_, by simp [funcFrom]; rfl⟩
  by_cases hp : r.FromOperationId.length ≤ X.length
  · have := (List.prefix_of_prefix_length_le hF hX hp).count_le 'x'
    omega
  · have hXF : X <+: r.FromOperationId :=
      List.prefix_of_prefix_length_le hX hF (by omega)
    obtain ⟨F2, hF2⟩ := hXF
    have hlenF : X.length + F2.length = r.FromOperationId.length := by
      rw [← hF2, List.length_append]
    have hcF : List.count 'x' X + List.count 'x' F2 = List.count 'x' r.FromOperationId := by
      rw [← hF2, List.count_append]
    have hS : F2 ++ "Params) middleware.Responder \x7b".toList <:+ funcFrom r := by
      refine ⟨r.FromOperationId ++ "Handler: ".toList ++ r.FromOperationId ++
        "HandlerFunc(func(params ".toList ++ X, ?_⟩
      simp only [funcFrom, List.append_assoc]
      rw [← List.append_assoc X F2, hF2]
    have hS2 : F2 ++ "Params) middleware.Responder \x7b".toList <:+ Y :=
      List.suffix_of_suffix_length_le hS hY (by rw [List.length_append, l6]; omega)
    have := hS2.sublist.count_le 'x'
    rw [List.count_append, c6] at this
    omega

theorem replaceFrom_skip (old new : Str) (k : Nat) (s : Str) :
    replaceFrom old new k s = replaceFrom old new 0 (s.drop k) := by
  induction k generalizing s with
  | zero => rfl
  | succ k ih =>
    cases s with
    | nil => rfl
    | cons c s => rw [replaceFrom, List.drop_succ_cons]; exact ih s

/-- A string in which `old` does not occur is left as it is. -/
theorem replaceFrom_no_match (old new : Str) (s : Str) (h : ¬ old <:+: s) :
    replaceFrom old new 0 s = s := by
  induction s with
  | nil => rfl
  | cons c s ih =>
    have hp : HasPrefix (c :: s) old = false := by
      rw [Bool.eq_false_iff, Ne, hasPrefix_iff]
      exact fun hp => h hp.isInfix
    rw [replaceFrom, hp]
    simp only [Bool.false_eq_true, if_false]
    rw [ih (fun hi => h (List.infix_cons hi))]

/-- The leftmost occurrence of `old` is replaced and the scan goes on behind
it. -/
theorem replaceFrom_first (old new pre post : Str) (hne : old ≠ [])
    (h : ¬ old <:+: pre ++ old.dropLast) :
    replaceFrom old new 0 (pre ++ old ++ post) = pre ++ new ++ replaceFrom old new 0 post := by
  induction pre with
  | nil =>
    cases old with
    | nil => exact absurd rfl hne
    | cons c t =>
      have hp : HasPrefix (c :: (t ++ post)) (c :: t) = true := by
        rw [hasPrefix_iff]; exact ⟨post, rfl⟩
      simp only [List.nil_append, List.cons_append]
      rw [replaceFrom, hp]
      simp only [if_true, List.length_cons, Nat.add_sub_cancel]
      rw [replaceFrom_skip, List.drop_left]
  | cons c pre ih =>
    have hp : HasPrefix (c :: (pre ++ old ++ post)) old = false := by
      rw [Bool.eq_false_iff, Ne, hasPrefix_iff]
      intro hp
      apply h
      have h2 : (c :: pre) ++ old.dropLast <+: c :: (pre ++ old ++ post) := by
        refine ⟨old.getLast hne :: post, ?_⟩
        have := List.dropLast_append_getLast hne
        simp only [List.cons_append, List.append_assoc, List.cons.injEq, true_and]
        rw [List.append_right_inj]
        conv_rhs => rw [← this]
        simp
      apply (List.prefix_of_prefix_length_le hp h2 ?_).isInfix
      have := List.length_pos.2 hne
      simp only [List.cons_append, List.length_cons, List.length_append, List.length_dropLast]
      omega
    simp only [List.cons_append]
    rw [replaceFrom, hp]
    simp only [Bool.false_eq_true, if_false, List.cons.injEq, true_and]
    have := ih (fun hi => h (List.infix_cons hi))
    simpa using this

theorem routeFrom_ne_nil (r : Replacement) : routeFrom r ≠ [] := by
  simp [routeFrom]

theorem routeFrom_head (r : Replacement) : ∃ c ∈ (routeFrom r).head?, isSpace c = false :=
  ⟨'N', by simp [routeFrom], by decide⟩

theorem routeFrom_last (r : Replacement) : ∃ c ∈ (routeFrom r).getLast?, isSpace c = false := by
  refine ⟨')', ?_, by decide⟩
  have : (("New".toList ++ r.FromOperationId ++ "(o.context, o.".toList ++
      r.FromOperationId) ++ "Handler)".toList).getLast? = some ')' := by
    rw [List.getLast?_append]; rfl
  simpa [routeFrom] using this

/-- A line that holds the route pattern of a rule is no import marker and is
neither the handler-field nor the handler-func pattern of that rule. -/
theorem route_line {r : Replacement} {line : Str} (h : routeFrom r <:+: line) :
    TrimSpace line ≠ importOpen ∧ TrimSpace line ≠ fieldFrom r ∧
      TrimSpace line ≠ funcFrom r := by
  have hi := infix_trimSpace h (routeFrom_head r) (routeFrom_last r)
  refine ⟨?_, ?_, ?_⟩
  · intro heq
    rw [heq] at hi
    have := hi.length_le
    simp [routeFrom, importOpen] at this
    omega
  · intro heq; rw [heq] at hi; exact route_not_in_field r hi
  · intro heq; rw [heq] at hi; exact route_not_in_func r hi

theorem apiRule_route {r : Replacement} {line : Str} (h : routeFrom r <:+: line) :
    apiRule line r = replaceFrom (routeFrom r) (routeTo r) 0 line := by
  obtain ⟨_, h2, h3⟩ := route_line h
  have a1 : apiField line r = line := by rw [apiField, if_neg h2]
  have a2 : apiFunc line r = line := by rw [apiFunc, if_neg h3]
  rw [apiRule, a1, a2, apiRoute, (contains_iff _ _).2 h, if_pos rfl, ReplaceAll,
    if_neg (routeFrom_ne_nil r)]

/-- C2, as the code has it: with the single rule `r`, a line
`pre ++ New<from>(o.context, o.<from>Handler) ++ post` in which the pattern
occurs this once (no occurrence begins inside `pre`, none lies in `post`) is
emitted as `pre ++ <alias>.New<to>(o.context, o.<from>Handler) ++ post`. -/
theorem route_rewrite (r : Replacement) (pre post : Str)
    (hpre : Contains (pre ++ ("New".toList ++ r.FromOperationId ++ "(o.context, o.".toList ++
      r.FromOperationId ++ "Handler)".toList).dropLast)
      ("New".toList ++ r.FromOperationId ++ "(o.context, o.".toList ++
      r.FromOperationId ++ "Handler)".toList) = false)
    (hpost : Contains post ("New".toList ++ r.FromOperationId ++ "(o.context, o.".toList ++
      r.FromOperationId ++ "Handler)".toList) = false) :
    apiEmit ⟨[r]⟩ (pre ++ ("New".toList ++ r.FromOperationId ++ "(o.context, o.".toList ++
      r.FromOperationId ++ "Handler)".toList) ++ post) =
      pre ++ (r.ToPackageAlias ++ ".New".toList ++ r.ToOperationId ++
        "(o.context, o.".toList ++ r.FromOperationId ++ "Handler)".toList) ++ post ++
        "\n".toList := by
  have h1 : ¬ routeFrom r <:+: pre ++ (routeFrom r).dropLast := (contains_false_iff _ _).1 hpre
  have h2 : ¬ routeFrom r <:+: post := (contains_false_iff _ _).1 hpost
  have hi : routeFrom r <:+: pre ++ routeFrom r ++ post := ⟨pre, post, rfl⟩
  have hm := (route_line hi).1
  have hgoal : apiEmit ⟨[r]⟩ (pre ++ routeFrom r ++ post) =
      pre ++ routeTo r ++ post ++ "\n".toList := by
    rw [apiEmit, if_neg hm]
    simp only [List.foldl_cons, List.foldl_nil]
    rw [apiRule_route hi, replaceFrom_first _ _ _ _ (routeFrom_ne_nil r) h1,
      replaceFrom_no_match _ _ _ h2]
    rfl
  exact hgoal

set_option maxRecDepth 100000 in
theorem route_rewrite_witness :
    apiEmit ⟨[onboardingRule]⟩
      "o.handlers[\"POST\"][\"/api/v2/onboarding\"] = NewV2Onboarding(o.context, o.V2OnboardingHandler)".toList =
      "o.handlers[\"POST\"][\"/api/v2/onboarding\"] = onboarding.NewOnboarding(o.context, o.V2OnboardingHandler)\n".toList :=
  (route_rewrite onboardingRule
    "o.handlers[\"POST\"][\"/api/v2/onboarding\"] = ".toList [] (by decide) (by decide)).trans
    (by decide)

set_option maxRecDepth 100000 in
/-- C2, as stated, fails when the pattern occurs a second time in `pre`: every
occurrence on the line is replaced, so `pre` is not preserved. -/
theorem route_rewrite_twice :
    apiEmit ⟨[⟨"A".toList, "B".toList, "p".toList, "x/p".toList⟩]⟩
      ("NewA(o.context, o.AHandler), ".toList ++ "NewA(o.context, o.AHandler)".toList ++ []) =
      "p.NewB(o.context, o.AHandler), p.NewB(o.context, o.AHandler)\n".toList ∧
    apiEmit ⟨[⟨"A".toList, "B".toList, "p".toList, "x/p".toList⟩]⟩
      ("NewA(o.context, o.AHandler), ".toList ++ "NewA(o.context, o.AHandler)".toList ++ []) ≠
      "NewA(o.context, o.AHandler), ".toList ++ "p.NewB(o.context, o.AHandler)".toList ++ [] ++
        "\n".toList := by
  decide

theorem apiBuffer_eq (c : Config) (lines : List Str) :
    apiBuffer c lines = (lines.map (apiEmit c)).flatten := by
  unfold apiBuffer
  have h : ∀ (l : List Str) (o : Str),
      l.foldl (fun o str => o ++ apiEmit c str) o = o ++ (l.map (apiEmit c)).flatten := by
    intro l
    induction l with
    | nil => intro o; simp
    | cons i l ih => intro o; simp [ih]
  simpa using h lines []

theorem apiBuffer_append (c : Config) (l1 l2 : List Str) :
    apiBuffer c (l1 ++ l2) = apiBuffer c l1 ++ apiBuffer c l2 := by
  simp [apiBuffer_eq]

theorem apiBuffer_no_marker (c : Config) (l : List Str)
    (h : ∀ s ∈ l, TrimSpace s ≠ importOpen) :
    apiBuffer c l = (l.map (fun s => c.Replacements.foldl apiRule s ++ "\n".toList)).flatten := by
  rw [apiBuffer_eq]
  congr 1
  apply List.map_congr_left
  intro s hs
  rw [apiEmit, if_neg (h s hs)]
  rfl

/-- C10, as the code has it: for an input with exactly one import marker `m`,
the output is the rewritten lines before the marker, the marker line, one line
`\t<alias> "<toPackage>"` per rule in RuleSet order, and the rewritten lines
after the marker; every other input line yields exactly one output line,
whatever substitutions were made in it. -/
theorem import_completeness (c : Config) (pre post : List Str) (m : Str)
    (hm : TrimSpace m = "import (".toList)
    (hpre : ∀ s ∈ pre, TrimSpace s ≠ "import (".toList)
    (hpost : ∀ s ∈ post, TrimSpace s ≠ "import (".toList) :
    apiBuffer c (pre ++ m :: post) =
      (pre.map (fun s => c.Replacements.foldl apiRule s ++ "\n".toList)).flatten ++
      (m ++ "\n".toList) ++
      (c.Replacements.map (fun r =>
        "\t".toList ++ r.ToPackageAlias ++ " \"".toList ++ r.ToPackage ++ "\"".toList ++
          "\n".toList)).flatten ++
      (post.map (fun s => c.Replacements.foldl apiRule s ++ "\n".toList)).flatten := by
  have h1 : apiBuffer c (pre ++ m :: post) =
      apiBuffer c pre ++ apiEmit c m ++ apiBuffer c post := by
    have : pre ++ m :: post = pre ++ ([m] ++ post) := rfl
    rw [this, apiBuffer_append, apiBuffer_append]
    simp [apiBuffer_eq]
  have hf : TrimSpace m = importOpen := hm
  have h2 : apiEmit c m = m ++ ['\n'] ++ importBlock c := by rw [apiEmit, if_pos hf]
  rw [h1, apiBuffer_no_marker c pre hpre, apiBuffer_no_marker c post hpost, h2,
    emit_marker c m]
  simp only [List.append_assoc]

set_option maxRecDepth 100000 in
theorem import_completeness_witness :
    apiBuffer ⟨[onboardingRule]⟩
      ["package operations".toList, "import (".toList, "\t\"net/http\"".toList, ")".toList,
        "\tV2OnboardingHandler V2OnboardingHandler".toList] =
      "package operations\nimport (\n\tonboarding \"app/onboarding\"\n\t\"net/http\"\n)\n\tV2OnboardingHandler onboarding.OnboardingHandler\n".toList :=
  (import_completeness ⟨[onboardingRule]⟩ ["package operations".toList]
    ["\t\"net/http\"".toList, ")".toList, "\tV2OnboardingHandler V2OnboardingHandler".toList]
    "import (".toList (by decide) (by decide) (by decide)).trans (by decide)

set_option maxRecDepth 100000 in
/-- C10, as stated, fails on an input without an import marker: the output
holds no import line of the rule. -/
theorem import_completeness_no_marker :
    apiBuffer ⟨[onboardingRule]⟩
      ["package operations".toList, "\tV2OnboardingHandler V2OnboardingHandler".toList] =
      "package operations\n\tV2OnboardingHandler onboarding.OnboardingHandler\n".toList ∧
    Contains (apiBuffer ⟨[onboardingRule]⟩
      ["package operations".toList, "\tV2OnboardingHandler V2OnboardingHandler".toList])
      "\tonboarding \"app/onboarding\"".toList = false := by
  decide

theorem ident_count {s : Str} (h : isIdent s = true) {c : Char}
    (hc : isIdentChar c = false) : List.count c s = 0 :=
  List.count_eq_zero.2 (ident_not_mem h hc)

/-- A character that is no white space and occurs in a string occurs in the
trimmed string. -/
theorem mem_trimSpace {s : Str} {c : Char} (hc : isSpace c = false) (h : c ∈ s) :
    c ∈ TrimSpace s := by
  have hi : [c] <:+: s := by
    obtain ⟨a, b, hab⟩ := List.append_of_mem h
    exact ⟨a, b, by rw [hab]; simp⟩
  have := infix_trimSpace hi ⟨c, by simp, hc⟩ ⟨c, by simp, hc⟩
  exact this.subset (List.mem_singleton_self c)

theorem fieldFrom_no_comma {r : Replacement} (h : identRule r = true) : ',' ∉ fieldFrom r := by
  have h1 := ident_not_mem (identRule_from h) (c := ',') (by decide)
  simp [fieldFrom, h1]

theorem funcFrom_no_comma {r : Replacement} (h : identRule r = true) : ',' ∉ funcFrom r := by
  have h1 := ident_not_mem (identRule_from h) (c := ',') (by decide)
  simp [funcFrom, h1]

/-- A line without a comma in its trimmed text holds no route pattern. -/
theorem no_route_of_trim {line : Str} (h : ',' ∉ TrimSpace line) (q : Replacement) :
    Contains line (routeFrom q) = false := by
  rw [contains_false_iff]
  intro hi
  exact h (mem_trimSpace (by decide) (comma_of_route hi))

theorem fieldTo_ne_fieldFrom {r q : Replacement} (hr : identRule r = true)
    (hq : identRule q = true) : TrimSpace (fieldTo r) ≠ fieldFrom q := by
  rw [trimSpace_fieldTo hr]
  intro h
  have := congrArg (List.count '.') h
  simp only [fieldFrom, List.count_append] at this
  rw [ident_count (identRule_from hr) (c := '.') (by decide),
    ident_count (identRule_to hr) (c := '.') (by decide),
    ident_count (identRule_alias hr) (c := '.') (by decide),
    ident_count (identRule_from hq) (c := '.') (by decide)] at this
  revert this
  decide

theorem fieldTo_ne_funcFrom {r q : Replacement} (hr : identRule r = true)
    (hq : identRule q = true) : TrimSpace (fieldTo r) ≠ funcFrom q := by
  rw [trimSpace_fieldTo hr]
  intro h
  have := congrArg (List.count ':') h
  simp only [funcFrom, List.count_append] at this
  rw [ident_count (identRule_from hr) (c := ':') (by decide),
    ident_count (identRule_to hr) (c := ':') (by decide),
    ident_count (identRule_alias hr) (c := ':') (by decide),
    ident_count (identRule_from hq) (c := ':') (by decide)] at this
  revert this
  decide

theorem funcTo_ne_fieldFrom {r q : Replacement} (hr : identRule r = true)
    (hq : identRule q = true) : TrimSpace (funcTo r) ≠ fieldFrom q := by
  rw [trimSpace_funcTo hr]
  intro h
  have := congrArg (List.count ':') h
  simp only [fieldFrom, List.count_append] at this
  rw [ident_count (identRule_from hr) (c := ':') (by decide),
    ident_count (identRule_to hr) (c := ':') (by decide),
    ident_count (identRule_alias hr) (c := ':') (by decide),
    ident_count (identRule_from hq) (c := ':') (by decide)] at this
  revert this
  decide

theorem funcTo_ne_funcFrom {r q : Replacement} (hr : identRule r = true)
    (hq : identRule q = true) : TrimSpace (funcTo r) ≠ funcFrom q := by
  rw [trimSpace_funcTo hr]
  intro h
  have := congrArg (List.count '.') h
  simp only [funcFrom, List.count_append] at this
  rw [ident_count (identRule_from hr) (c := '.') (by decide),
    ident_count (identRule_to hr) (c := '.') (by decide),
    ident_count (identRule_alias hr) (c := '.') (by decide),
    ident_count (identRule_from hq) (c := '.') (by decide)] at this
  revert this
  decide

/-- A rewritten handler-field line is left alone by every rule. -/
theorem apiRule_fieldTo {r q : Replacement} (hr : identRule r = true)
    (hq : identRule q = true) : apiRule (fieldTo r) q = fieldTo r :=
  apiRule_of_no_match (fieldTo_ne_fieldFrom hr hq) (fieldTo_ne_funcFrom hr hq)
    (fieldTo_no_route hr)

/-- A rewritten handler-func line is left alone by every rule. -/
theorem apiRule_funcTo {r q : Replacement} (hr : identRule r = true)
    (hq : identRule q = true) : apiRule (funcTo r) q = funcTo r :=
  apiRule_of_no_match (funcTo_ne_fieldFrom hr hq) (funcTo_ne_funcFrom hr hq)
    (funcTo_no_route hr)

theorem foldl_apiRule_fixed (l : List Replacement) (s : Str)
    (h : ∀ q ∈ l, apiRule s q = s) : l.foldl apiRule s = s := by
  induction l with
  | nil => rfl
  | cons q l ih =>
    rw [List.foldl_cons, h q (List.mem_cons_self _ _)]
    exact ih (fun p hp => h p (List.mem_cons_of_mem _ hp))

/-- The rule loop on a line that is the handler-field pattern of `r`. -/
theorem apiRule_field {r : Replacement} {line : Str} (hr : identRule r = true)
    (h : TrimSpace line = fieldFrom r) : apiRule line r = fieldTo r := by
  have h1 : apiField line r = fieldTo r := by rw [apiField, if_pos h]
  have h2 : apiFunc (fieldTo r) r = fieldTo r := by
    rw [apiFunc, if_neg (fieldTo_ne_funcFrom hr hr)]
  have h3 : apiRoute (fieldTo r) r = fieldTo r := by
    rw [apiRoute, fieldTo_no_route hr]; rfl
  rw [apiRule, h1, h2, h3]

/-- The rule loop on a line that is the handler-func pattern of `r`. -/
theorem apiRule_func {r : Replacement} {line : Str} (hr : identRule r = true)
    (h : TrimSpace line = funcFrom r) : apiRule line r = funcTo r := by
  have h1 : apiField line r = line := by
    rw [apiField, if_neg]; rw [h]; exact funcFrom_ne_fieldFrom r
  have h2 : apiFunc line r = funcTo r := by rw [apiFunc, if_pos h]
  have h3 : apiRoute (funcTo r) r = funcTo r := by
    rw [apiRoute, funcTo_no_route hr]; rfl
  rw [apiRule, h1, h2, h3]

/-- C8, as the code has it: among rules whose names are identifiers, the first
rule in RuleSet order whose pattern 2 or pattern 3 equals the trimmed line
produces the emitted line; the rules after it are tested against the rewritten
line and change nothing. -/
theorem first_match_wins (c : Config) (l1 l2 : List Replacement) (r : Replacement)
    (line : Str) (hid : ∀ q ∈ c.Replacements, identRule q = true)
    (hsplit : c.Replacements = l1 ++ r :: l2)
    (hfirst : ∀ q ∈ l1, TrimSpace line ≠ fieldFrom q ∧ TrimSpace line ≠ funcFrom q)
    (hr : TrimSpace line = fieldFrom r ∨ TrimSpace line = funcFrom r) :
    apiEmit c line =
      (if TrimSpace line = fieldFrom r then fieldTo r else funcTo r) ++ "\n".toList := by
  have hrid : identRule r = true := hid r (by rw [hsplit]; simp)
  have hcomma : ',' ∉ TrimSpace line := by
    rcases hr with h | h <;> rw [h]
    · exact fieldFrom_no_comma hrid
    · exact funcFrom_no_comma hrid
  have hm : TrimSpace line ≠ importOpen := by
    rcases hr with h | h <;> rw [h]
    · exact fieldFrom_ne_importOpen r
    · exact funcFrom_ne_importOpen r
  have h1 : l1.foldl apiRule line = line :=
    foldl_apiRule_fixed l1 line (fun q hq =>
      apiRule_of_no_match (hfirst q hq).1 (hfirst q hq).2 (no_route_of_trim hcomma q))
  rw [apiEmit, if_neg hm, hsplit, List.foldl_append, h1, List.foldl_cons]
  by_cases hf : TrimSpace line = fieldFrom r
  · rw [if_pos hf, apiRule_field hrid hf]
    rw [foldl_apiRule_fixed l2 _ (fun q hq =>
      apiRule_fieldTo hrid (hid q (by rw [hsplit]; simp [hq])))]
    rfl
  · have hg : TrimSpace line = funcFrom r := hr.resolve_left hf
    rw [if_neg hf, apiRule_func hrid hg]
    rw [foldl_apiRule_fixed l2 _ (fun q hq =>
      apiRule_funcTo hrid (hid q (by rw [hsplit]; simp [hq])))]
    rfl

set_option maxRecDepth 100000 in
theorem first_match_wins_witness :
    apiEmit ⟨[⟨"B".toList, "C".toList, "q".toList, "x/q".toList⟩,
        ⟨"A".toList, "B1".toList, "p1".toList, "x/p1".toList⟩,
        ⟨"A".toList, "B2".toList, "p2".toList, "x/p2".toList⟩]⟩ "  AHandler AHandler".toList =
      "\tAHandler p1.B1Handler\n".toList :=
  (first_match_wins _ [⟨"B".toList, "C".toList, "q".toList, "x/q".toList⟩]
    [⟨"A".toList, "B2".toList, "p2".toList, "x/p2".toList⟩]
    ⟨"A".toList, "B1".toList, "p1".toList, "x/p1".toList⟩ "  AHandler AHandler".toList
    (by decide) rfl (by decide) (by decide)).trans (by decide)

set_option maxRecDepth 100000 in
/-- C8, as stated, fails: two rules with the same fromOperationId both match
the line `AHandler AHandler`, and the emitted line is the rewrite of the first
rule, not of the last. -/
theorem last_match_loses :
    TrimSpace "AHandler AHandler".toList =
      fieldFrom ⟨"A".toList, "B1".toList, "p1".toList, "x/p1".toList⟩ ∧
    TrimSpace "AHandler AHandler".toList =
      fieldFrom ⟨"A".toList, "B2".toList, "p2".toList, "x/p2".toList⟩ ∧
    apiEmit ⟨[⟨"A".toList, "B1".toList, "p1".toList, "x/p1".toList⟩,
        ⟨"A".toList, "B2".toList, "p2".toList, "x/p2".toList⟩]⟩ "AHandler AHandler".toList =
      "\tAHandler p1.B1Handler\n".toList ∧
    apiEmit ⟨[⟨"A".toList, "B1".toList, "p1".toList, "x/p1".toList⟩,
        ⟨"A".toList, "B2".toList, "p2".toList, "x/p2".toList⟩]⟩ "AHandler AHandler".toList ≠
      "\tAHandler p2.B2Handler\n".toList := by
  decide

/-! ## Occurrences of a pattern in a concatenation -/

set_option maxRecDepth 100000 in
/-- Precedence with a name that is no identifier: with the dotted name `x.y`
the line rewritten by the first rule is again the handler-field pattern, and
the second rule rewrites it. -/
theorem dotted_name_last_rule :
    apiEmit ⟨[⟨"x.y".toList, "y".toList, "x".toList, "p/x".toList⟩,
        ⟨"x.y".toList, "T".toList, "a".toList, "p/a".toList⟩]⟩ "x.yHandler x.yHandler".toList =
      "\tx.yHandler a.THandler\n".toList := by
  decide

set_option maxRecDepth 100000 in
/-- A second pass with a name that is no identifier: a toOperationId that
holds the route pattern is found again by the second pass, although `New<to>`
does not end with `New<from>`. -/
theorem pattern_in_name_second_pass :
    reopens ⟨"X".toList, "NewX(o.context, o.XHandler)".toList, "a".toList, "p/a".toList⟩
      = false ∧
    apiEmit ⟨[⟨"X".toList, "NewX(o.context, o.XHandler)".toList, "a".toList, "p/a".toList⟩]⟩
      "NewX(o.context, o.XHandler)".toList =
      "a.NewNewX(o.context, o.XHandler)(o.context, o.XHandler)\n".toList ∧
    matchesRule "a.NewNewX(o.context, o.XHandler)(o.context, o.XHandler)".toList
      ⟨"X".toList, "NewX(o.context, o.XHandler)".toList, "a".toList, "p/a".toList⟩ = true := by
  decide

/-! ## Duplicate rules, the configure marker, the empty RuleSet, read failures -/

theorem fieldFrom_inj {q : Replacement} {op : Str}
    (h : op ++ "Handler ".toList ++ op ++ "Handler".toList = fieldFrom q) :
    q.FromOperationId = op := by
  have hl := congrArg List.length h
  simp only [fieldFrom, List.length_append] at hl
  have hlen : op.length = q.FromOperationId.length := by omega
  have := List.append_inj_left (by simpa [fieldFrom] using h) hlen
  exact this.symm

/-- C16. First-match precedence for duplicate rules: with identifier names, a
line whose trimmed text is `<op>Handler <op>Handler` is emitted as
`\t<op>Handler <alias>.<to>Handler`, alias and to being those of the first rule
in RuleSet order whose fromOperationId is `op`. -/
theorem first_duplicate_wins (c : Config) (op line : Str) (r : Replacement)
    (hid : ∀ q ∈ c.Replacements, identRule q = true)
    (hline : TrimSpace line = op ++ "Handler ".toList ++ op ++ "Handler".toList)
    (hr : c.Replacements.find? (fun q => decide (q.FromOperationId = op)) = some r) :
    apiEmit c line =
      "\t".toList ++ op ++ "Handler ".toList ++ r.ToPackageAlias ++ ".".toList ++
        r.ToOperationId ++ "Handler".toList ++ "\n".toList := by
  obtain ⟨hop, l1, l2, hsplit, hl1⟩ := List.find?_eq_some.1 hr
  have hop' : r.FromOperationId = op := of_decide_eq_true hop
  have hrid : identRule r = true := hid r (by rw [hsplit]; simp)
  have hf : TrimSpace line = fieldFrom r := by rw [hline, fieldFrom, hop']
  have hcomma : ',' ∉ TrimSpace line := by rw [hf]; exact fieldFrom_no_comma hrid
  have hm : TrimSpace line ≠ importOpen := by rw [hf]; exact fieldFrom_ne_importOpen r
  have h1 : l1.foldl apiRule line = line := by
    apply foldl_apiRule_fixed
    intro q hq
    have hqid : identRule q = true := hid q (by rw [hsplit]; simp [hq])
    have hne : q.FromOperationId ≠ op := by
      have := hl1 q hq
      simpa using this
    refine apiRule_of_no_match (fun he => hne (fieldFrom_inj (hline ▸ he))) (fun he => ?_)
      (no_route_of_trim hcomma q)
    have hcol : ':' ∈ funcFrom q := by simp [funcFrom]
    rw [← he, hf] at hcol
    have hF := ident_not_mem (identRule_from hrid) (c := ':') (by decide)
    simp [fieldFrom, hF] at hcol
  rw [apiEmit, if_neg hm, hsplit, List.foldl_append, h1, List.foldl_cons, apiRule_field hrid hf,
    foldl_apiRule_fixed l2 _ (fun q hq =>
      apiRule_fieldTo hrid (hid q (by rw [hsplit]; simp [hq])))]
  simp [fieldTo, hop']

set_option maxRecDepth 100000 in
theorem first_duplicate_wins_witness :
    apiEmit ⟨[⟨"B".toList, "C".toList, "q".toList, "x/q".toList⟩,
        ⟨"A".toList, "B1".toList, "p1".toList, "x/p1".toList⟩,
        ⟨"A".toList, "B2".toList, "p2".toList, "x/p2".toList⟩]⟩ "\t\tAHandler AHandler ".toList =
      "\tAHandler p1.B1Handler\n".toList :=
  (first_duplicate_wins _ "A".toList "\t\tAHandler AHandler ".toList
    ⟨"A".toList, "B1".toList, "p1".toList, "x/p1".toList⟩
    (by decide) (by decide) (by decide)).trans (by decide)

/-- C17. Import injection of the configure rewriter: a line whose trimmed text
is the marker `import (` is emitted unchanged, followed by one line
`\t<alias> "<toPackage>"` per rule in RuleSet order, which is what the API
rewriter emits for that line. -/
theorem configure_import_injection (c : Config) (apiPackage line : Str)
    (hline : TrimSpace line = "import (".toList) :
    configureEmit c apiPackage line = line ++ "\n".toList ++
      (c.Replacements.map (fun r =>
        "\t".toList ++ r.ToPackageAlias ++ " \"".toList ++ r.ToPackage ++ "\"".toList ++
          "\n".toList)).flatten ∧
    configureEmit c apiPackage line = apiEmit c line := by
  have hf : TrimSpace line = importOpen := hline
  constructor
  · rw [configureEmit, if_pos hf]
    exact emit_marker c line
  · rw [configureEmit, if_pos hf, apiEmit, if_pos hf]

set_option maxRecDepth 100000 in
theorem configure_import_injection_witness :
    configureEmit ⟨[onboardingRule]⟩ "operations".toList " import (".toList =
      " import (\n\tonboarding \"app/onboarding\"\n".toList ∧
    configureEmit ⟨[onboardingRule]⟩ "operations".toList " import (".toList =
      apiEmit ⟨[onboardingRule]⟩ " import (".toList :=
  configure_import_injection ⟨[onboardingRule]⟩ "operations".toList " import (".toList
    (by decide)

theorem configureBuffer_eq (c : Config) (apiPackage : Str) (lines : List Str) :
    configureBuffer c apiPackage lines = (lines.map (configureEmit c apiPackage)).flatten := by
  unfold configureBuffer
  have h : ∀ (l : List Str) (o : Str),
      l.foldl (fun o str => o ++ configureEmit c apiPackage str) o =
        o ++ (l.map (configureEmit c apiPackage)).flatten := by
    intro l
    induction l with
    | nil => intro o; simp
    | cons i l ih => intro o; simp [ih]
  simpa using h lines []

theorem apiEmit_empty (str : Str) : apiEmit ⟨[]⟩ str = str ++ "\n".toList := by
  unfold apiEmit
  split <;> simp [importBlock]

theorem configureEmit_empty (apiPackage str : Str) :
    configureEmit ⟨[]⟩ apiPackage str = str ++ "\n".toList := by
  unfold configureEmit
  split <;> simp [importBlock]

/-- C18. The empty RuleSet is the identity: both rewriters put into their
buffer the scanned lines, each unchanged and followed by a newline, markers
included, and with a scan and a destination that report no error exactly this
text is written. -/
theorem empty_ruleset_identity (lines : List Str) (apiPackage : Str) (n : Nat) :
    apiBuffer ⟨[]⟩ lines = (lines.map (fun s => s ++ "\n".toList)).flatten ∧
    configureBuffer ⟨[]⟩ apiPackage lines = (lines.map (fun s => s ++ "\n".toList)).flatten ∧
    rewriteApi ⟨lines, none⟩ ⟨n, none, none⟩ ⟨[]⟩ =
      ⟨none, (lines.map (fun s => s ++ "\n".toList)).flatten⟩ ∧
    rewriteConfigure ⟨lines, none⟩ ⟨n, none, none⟩ ⟨[]⟩ apiPackage =
      ⟨none, (lines.map (fun s => s ++ "\n".toList)).flatten⟩ := by
  have h1 : apiBuffer ⟨[]⟩ lines = (lines.map (fun s => s ++ "\n".toList)).flatten := by
    rw [apiBuffer_eq]
    congr 1
    exact List.map_congr_left (fun s _ => apiEmit_empty s)
  have h2 : configureBuffer ⟨[]⟩ apiPackage lines =
      (lines.map (fun s => s ++ "\n".toList)).flatten := by
    rw [configureBuffer_eq]
    congr 1
    exact List.map_congr_left (fun s _ => configureEmit_empty apiPackage s)
  refine ⟨h1, h2, ?_, ?_⟩
  · simp only [rewriteApi, finish, h1]
  · simp only [rewriteConfigure, finish, h2]

/-- C19. All-or-nothing output on read failure: when the scan reports the
error `e`, both rewriters return `read file failed: e` and the destination has
received no byte, whatever lines were scanned before; a destination that has
received bytes implies a scan without error. -/
theorem read_failure_writes_nothing (lines : List Str) (e : Str) (out : Dest) (c : Config)
    (apiPackage : Str) :
    rewriteApi ⟨lines, some e⟩ out c = ⟨some ("read file failed: ".toList ++ e), []⟩ ∧
    rewriteConfigure ⟨lines, some e⟩ out c apiPackage =
      ⟨some ("read file failed: ".toList ++ e), []⟩ ∧
    (∀ s : Scan, (rewriteApi s out c).written ≠ [] → s.err = none) ∧
    (∀ s : Scan, (rewriteConfigure s out c apiPackage).written ≠ [] → s.err = none) := by
  refine ⟨rfl, rfl, ?_, ?_⟩
  · intro s h
    cases hs : s.err with
    | none => rfl
    | some e => simp [rewriteApi, finish, hs] at h
  · intro s h
    cases hs : s.err with
    | none => rfl
    | some e => simp [rewriteConfigure, finish, hs] at h

/-! ## One rewrite per rule, and the number of lines -/

/-- C12, as the code has it: in the iteration of a rule whose names are
identifiers at most one of the three rewrites is applied to the line. -/
theorem one_rewrite_per_rule (r : Replacement) (line : Str) (hr : identRule r = true) :
    rewritesApplied line r ≤ 1 := by
  unfold rewritesApplied fieldFires funcFires routeFires
  by_cases h2 : TrimSpace line = fieldFrom r
  · have a1 : apiField line r = fieldTo r := by rw [apiField, if_pos h2]
    have a2 : apiFunc (fieldTo r) r = fieldTo r := by
      rw [apiFunc, if_neg (fieldTo_ne_funcFrom hr hr)]
    rw [a1, a2, fieldTo_no_route hr, decide_eq_false (fieldTo_ne_funcFrom hr hr),
      decide_eq_true h2]
    decide
  · have a1 : apiField line r = line := by rw [apiField, if_neg h2]
    rw [a1, decide_eq_false h2]
    by_cases h3 : TrimSpace line = funcFrom r
    · have a2 : apiFunc line r = funcTo r := by rw [apiFunc, if_pos h3]
      rw [a2, funcTo_no_route hr, decide_eq_true h3]
      decide
    · rw [decide_eq_false h3]
      cases Contains (apiFunc line r) (routeFrom r) <;> simp

set_option maxRecDepth 100000 in
theorem one_rewrite_per_rule_witness :
    rewritesApplied "\tV2OnboardingHandler V2OnboardingHandler".toList onboardingRule ≤ 1 :=
  one_rewrite_per_rule onboardingRule "\tV2OnboardingHandler V2OnboardingHandler".toList
    (by decide)

set_option maxRecDepth 100000 in
/-- C12, as stated, fails for a toOperationId that holds the route pattern: the
handler-field rewrite is applied, and the route rewrite is applied to the line
it has produced. -/
theorem two_rewrites_in_one_rule :
    fieldFires "XHandler XHandler".toList
      ⟨"X".toList, "NewX(o.context, o.XHandler)".toList, "a".toList, "p/a".toList⟩ = true ∧
    routeFires "XHandler XHandler".toList
      ⟨"X".toList, "NewX(o.context, o.XHandler)".toList, "a".toList, "p/a".toList⟩ = true ∧
    rewritesApplied "XHandler XHandler".toList
      ⟨"X".toList, "NewX(o.context, o.XHandler)".toList, "a".toList, "p/a".toList⟩ = 2 ∧
    apiEmit ⟨[⟨"X".toList, "NewX(o.context, o.XHandler)".toList, "a".toList, "p/a".toList⟩]⟩
      "XHandler XHandler".toList =
      "\tXHandler a.a.NewNewX(o.context, o.XHandler)(o.context, o.XHandler)Handler\n".toList := by
  decide

theorem mem_of_mem_trimSpace {s : Str} {c : Char} (h : c ∈ TrimSpace s) : c ∈ s := by
  unfold TrimSpace at h
  rw [List.mem_reverse] at h
  have h1 := (List.dropWhile_sublist isSpace).subset h
  rw [List.mem_reverse] at h1
  exact (List.dropWhile_sublist isSpace).subset h1

theorem mem_replaceFrom {old new : Str} {c : Char} (s : Str) :
    ∀ k : Nat, c ∈ replaceFrom old new k s → c ∈ new ∨ c ∈ s := by
  induction s with
  | nil => intro k h; simp [replaceFrom] at h
  | cons d s ih =>
    intro k h
    cases k with
    | succ k =>
      rw [replaceFrom] at h
      exact (ih k h).imp_right (List.mem_cons_of_mem _)
    | zero =>
      rw [replaceFrom] at h
      split at h
      · rcases List.mem_append.1 h with h1 | h1
        · exact Or.inl h1
        · exact (ih _ h1).imp_right (List.mem_cons_of_mem _)
      · rcases List.mem_cons.1 h with h1 | h1
        · exact Or.inr (h1 ▸ List.mem_cons_self _ _)
        · exact (ih _ h1).imp_right (List.mem_cons_of_mem _)

/-- One turn of the rule loop brings no newline into a line, when the names it
writes hold none. -/
theorem apiRule_no_newline {r : Replacement} {s : Str} (hs : '\n' ∉ s)
    (hto : '\n' ∉ r.ToOperationId) (hal : '\n' ∉ r.ToPackageAlias) :
    '\n' ∉ apiRule s r := by
  have h1 : '\n' ∉ apiField s r := by
    unfold apiField
    split
    · rename_i h
      have hF : '\n' ∉ r.FromOperationId := fun hm =>
        hs (mem_of_mem_trimSpace (h ▸ (by simp [fieldFrom, hm])))
      simp [fieldTo, hF, hto, hal]
    · exact hs
  have h2 : '\n' ∉ apiFunc (apiField s r) r := by
    unfold apiFunc
    split
    · rename_i h
      have hF : '\n' ∉ r.FromOperationId := fun hm =>
        h1 (mem_of_mem_trimSpace (h ▸ (by simp [funcFrom, hm])))
      simp [funcTo, hF, hto, hal]
    · exact h1
  unfold apiRule apiRoute
  split
  · rename_i h
    have hF : '\n' ∉ r.FromOperationId := fun hm =>
      h2 (((contains_iff _ _).1 h).subset (by simp [routeFrom, hm]))
    rw [ReplaceAll, if_neg (routeFrom_ne_nil r)]
    intro hm
    rcases mem_replaceFrom _ _ hm with h3 | h3
    · simp [routeTo, hF, hto, hal] at h3
    · exact h2 h3
  · exact h2

theorem foldl_apiRule_no_newline (l : List Replacement) :
    ∀ s : Str, '\n' ∉ s →
      (∀ r ∈ l, '\n' ∉ r.ToOperationId ∧ '\n' ∉ r.ToPackageAlias) →
      '\n' ∉ l.foldl apiRule s := by
  induction l with
  | nil => intro s hs _; exact hs
  | cons r l ih =>
    intro s hs hl
    rw [List.foldl_cons]
    exact ih _ (apiRule_no_newline hs (hl r (List.mem_cons_self _ _)).1
      (hl r (List.mem_cons_self _ _)).2) (fun q hq => hl q (List.mem_cons_of_mem _ hq))

theorem importBlock_newlines (l : List Replacement)
    (h : ∀ r ∈ l, '\n' ∉ r.ToPackageAlias ∧ '\n' ∉ r.ToPackage) :
    List.count '\n' (l.map importLine).flatten = l.length := by
  induction l with
  | nil => rfl
  | cons r l ih =>
    obtain ⟨h1, h2⟩ := h r (List.mem_cons_self _ _)
    rw [List.map_cons, List.flatten_cons, List.count_append,
      ih (fun q hq => h q (List.mem_cons_of_mem _ hq))]
    have : List.count '\n' (importLine r) = 1 := by
      simp only [importLine, List.count_append, List.count_eq_zero.2 h1,
        List.count_eq_zero.2 h2]
      decide
    rw [this, List.length_cons]; omega

/-- The newlines that the loop body writes for one scanned line. -/
theorem apiEmit_newlines (c : Config) (s : Str) (hs : '\n' ∉ s)
    (hrules : ∀ r ∈ c.Replacements,
      '\n' ∉ r.ToOperationId ∧ '\n' ∉ r.ToPackageAlias ∧ '\n' ∉ r.ToPackage) :
    List.count '\n' (apiEmit c s) =
      1 + if TrimSpace s = importOpen then c.Replacements.length else 0 := by
  unfold apiEmit
  split
  · rw [importBlock_eq, List.count_append, List.count_append, List.count_eq_zero.2 hs,
      importBlock_newlines _ (fun r hr => ⟨(hrules r hr).2.1, (hrules r hr).2.2⟩)]
    simp
  · rw [List.count_append, List.count_eq_zero.2
      (foldl_apiRule_no_newline _ s hs (fun r hr => ⟨(hrules r hr).1, (hrules r hr).2.1⟩))]
    simp

theorem apiBuffer_newlines (c : Config) (lines : List Str)
    (hlines : ∀ s ∈ lines, '\n' ∉ s)
    (hrules : ∀ r ∈ c.Replacements,
      '\n' ∉ r.ToOperationId ∧ '\n' ∉ r.ToPackageAlias ∧ '\n' ∉ r.ToPackage) :
    List.count '\n' (apiBuffer c lines) =
      lines.length +
        lines.countP (fun s => decide (TrimSpace s = importOpen)) * c.Replacements.length := by
  rw [apiBuffer_eq]
  induction lines with
  | nil => simp
  | cons s lines ih =>
    rw [List.map_cons, List.flatten_cons, List.count_append,
      ih (fun t ht => hlines t (List.mem_cons_of_mem _ ht)),
      apiEmit_newlines c s (hlines s (List.mem_cons_self _ _)) hrules, List.length_cons,
      List.countP_cons]
    by_cases h : TrimSpace s = importOpen
    · simp only [h, if_true, decide_True]
      rw [Nat.add_mul]; omega
    · simp only [h, if_false, decide_False, Bool.false_eq_true, Nat.add_zero]
      omega

/-- C11, as the code has it: when neither the scanned lines nor the names and
package paths of the rules hold a newline, every input line yields one output
line in its place, each import marker is followed by the n import lines, and
the output has m + k * n lines. -/
theorem line_count (c : Config) (lines : List Str)
    (hlines : ∀ s ∈ lines, '\n' ∉ s)
    (hrules : ∀ r ∈ c.Replacements,
      '\n' ∉ r.ToOperationId ∧ '\n' ∉ r.ToPackageAlias ∧ '\n' ∉ r.ToPackage) :
    apiBuffer c lines = (lines.map (fun s =>
      if TrimSpace s = "import (".toList then
        s ++ "\n".toList ++ (c.Replacements.map (fun r =>
          "\t".toList ++ r.ToPackageAlias ++ " \"".toList ++ r.ToPackage ++ "\"".toList ++
            "\n".toList)).flatten
      else c.Replacements.foldl apiRule s ++ "\n".toList)).flatten ∧
    List.count '\n' (apiBuffer c lines) =
      lines.length +
        lines.countP (fun s => decide (TrimSpace s = "import (".toList)) *
          c.Replacements.length := by
  refine ⟨?_, apiBuffer_newlines c lines hlines hrules⟩
  rw [apiBuffer_eq]
  congr 1
  apply List.map_congr_left
  intro s _
  show apiEmit c s = if TrimSpace s = importOpen then _ else _
  unfold apiEmit
  split
  · exact emit_marker c s
  · rfl

set_option maxRecDepth 100000 in
theorem line_count_witness :
    List.count '\n' (apiBuffer ⟨[onboardingRule]⟩
      ["package operations".toList, "import (".toList, ")".toList]) = 3 + 1 * 1 :=
  (line_count ⟨[onboardingRule]⟩
    ["package operations".toList, "import (".toList, ")".toList]
    (by decide) (by decide)).2

set_option maxRecDepth 100000 in
/-- C11, as stated, fails for a package path that holds a newline: one rule and
the two lines `import (` and `)` give four output lines, not three. -/
theorem line_count_newline_in_path :
    apiBuffer ⟨[⟨"A".toList, "B".toList, "p".toList, "x\ny".toList⟩]⟩
      ["import (".toList, ")".toList] = "import (\n\tp \"x\ny\"\n)\n".toList ∧
    List.count '\n' (apiBuffer ⟨[⟨"A".toList, "B".toList, "p".toList, "x\ny".toList⟩]⟩
      ["import (".toList, ")".toList]) = 4 ∧
    ["import (".toList, ")".toList].length +
      ["import (".toList, ")".toList].countP
        (fun s => decide (TrimSpace s = "import (".toList)) *
        [(⟨"A".toList, "B".toList, "p".toList, "x\ny".toList⟩ : Replacement)].length = 3 := by
  decide

/-! ## main: the required name, the handles, the originals -/

/-- C14. Required-name validation: with an empty application name `main`
prints the usage error and returns; it makes no call on a file or on the
formatter, and the file system is as it was, whatever the other flags are. -/
theorem name_required (env : Env) (f : Flags) (w : World) (h : f.appName = []) :
    mainRun env f w =
      ⟨w.fs, w.trace ++ [Event.print "--name flag is required".toList], Exit.noName⟩ := by
  simp [mainRun, leave, h]

set_option maxRecDepth 100000 in
theorem name_required_witness :
    mainRun (sampleEnv none (fun _ _ => none))
      ⟨"config.json".toList, "gen".toList, "restapi".toList, [], "operations".toList,
        "gofmt".toList, "-w".toList⟩ ⟨sampleFS, []⟩ =
      ⟨sampleFS, [] ++ [Event.print "--name flag is required".toList], Exit.noName⟩ :=
  name_required _ _ _ rfl

set_option maxRecDepth 100000 in
/-- C15 on the code: in a run in which every step succeeds, `main` returns with
the handle of the configure source still open; its deferred calls close
`configFile` twice and `configureFile` never. -/
theorem configure_handle_left_open :
    (mainRun (sampleEnv none (fun _ _ => none)) sampleFlags ⟨sampleFS, []⟩).exit =
      Exit.success ∧
    openAtExit (mainRun (sampleEnv none (fun _ _ => none)) sampleFlags ⟨sampleFS, []⟩) =
      [Handle.configureFile] ∧
    ((mainRun (sampleEnv none (fun _ _ => none)) sampleFlags ⟨sampleFS, []⟩).trace.filter
      (fun e => decide (e = Event.close Handle.configFile))).length = 2 := by
  decide

theorem setFile_ne {fs : FS} {p q : Str} {v : Option Str} (h : q ≠ p) :
    setFile fs p v q = fs q := by
  simp [setFile, h]

theorem setFile_same (fs : FS) (p : Str) (v : Option Str) : setFile fs p v p = v := by
  simp [setFile]

theorem received_ne {fs : FS} {p q : Str} {b : Str} (h : q ≠ p) :
    received fs p b q = fs q := by
  simp [received, setFile, h]

theorem received_isSome (fs : FS) (p q : Str) (b : Str) (h : (fs q).isSome = true) :
    (received fs p b q).isSome = true := by
  by_cases hq : q = p
  · simp [received, setFile, hq]
  · rw [received_ne hq]; exact h

theorem received_same (fs : FS) (p : Str) (b : Str) : (received fs p b p).isSome = true := by
  simp [received, setFile]

theorem rename_failed {env : Env} {fs : FS} {src dst e : Str}
    (h : (Rename env fs src dst).1 = some e) : (Rename env fs src dst).2 = fs := by
  unfold Rename at h ⊢
  cases hsrc : fs src with
  | none => rfl
  | some content =>
    cases herr : env.renameErr src dst with
    | none => simp [hsrc, herr] at h
    | some e2 => rfl

theorem rename_done {env : Env} {fs : FS} {src dst : Str}
    (h : (Rename env fs src dst).1 = none) :
    ∃ content, fs src = some content ∧ (Rename env fs src dst).2 =
      fun q => if q = dst then some content else if q = src then none else fs q := by
  unfold Rename at h ⊢
  cases hsrc : fs src with
  | none => simp [hsrc] at h
  | some content =>
    cases herr : env.renameErr src dst with
    | none => exact ⟨content, rfl, rfl⟩
    | some e2 => simp [hsrc, herr] at h

theorem create_done {env : Env} {fs : FS} {path : Str}
    (h : (Create env fs path).1 = none) : (Create env fs path).2 = setFile fs path (some []) := by
  unfold Create at h ⊢
  split
  · rename_i h1
    simp [h1] at h
  · rfl

/-- The file system in which the part of `main` from the formatter on ends,
when it ends on a failure. -/
theorem formatAndRename_late (env : Env) (f : Flags) (w : World) (deferred : List Handle) :
    (((formatAndRename env f w deferred).exit = Exit.gofmt ∨
        (formatAndRename env f w deferred).exit = Exit.renameApi) →
      (formatAndRename env f w deferred).fs =
        (env.gofmt f.goFmtCmd f.goFmtArg (apiTmpFileName env f) (configureTmpFileName env f)
          w.fs).2) ∧
    ((formatAndRename env f w deferred).exit = Exit.renameConfigure →
      ∃ content,
        (env.gofmt f.goFmtCmd f.goFmtArg (apiTmpFileName env f) (configureTmpFileName env f)
          w.fs).2 (apiTmpFileName env f) = some content ∧
        (formatAndRename env f w deferred).fs = fun q =>
          if q = apiFileName env f then some content
          else if q = apiTmpFileName env f then none
          else (env.gofmt f.goFmtCmd f.goFmtArg (apiTmpFileName env f)
            (configureTmpFileName env f) w.fs).2 q) := by
  unfold formatAndRename
  dsimp only
  split
  · exact ⟨fun _ => rfl, fun h => by simp [leave] at h⟩
  · split
    · rename_i h1
      exact ⟨fun _ => rename_failed h1, fun h => by simp [leave] at h⟩
    · rename_i h1
      split
      · rename_i h2
        refine ⟨fun h => by simp [leave] at h, fun _ => ?_⟩
        obtain ⟨content, hc, hfs⟩ := rename_done h1
        refine ⟨content, hc, ?_⟩
        simp only [leave]
        rw [rename_failed h2, hfs]
      · exact ⟨fun h => by simp [leave] at h, fun h => by simp [leave] at h⟩

/-- A run of `main` that ends at the formatter or at a rename has gone through
both rewrites: the formatter starts in the file system in which the two temp
files have received what the rewriters wrote. -/
theorem loadAndRewrite_late (env : Env) (f : Flags) (w : World) (deferred : List Handle)
    (h : (loadAndRewrite env f w deferred).exit = Exit.gofmt ∨
      (loadAndRewrite env f w deferred).exit = Exit.renameApi ∨
      (loadAndRewrite env f w deferred).exit = Exit.renameConfigure) :
    ∃ (b1 b2 : Str) (t : List Event),
      loadAndRewrite env f w deferred =
        formatAndRename env f
          ⟨received (received w.fs (apiTmpFileName env f) b1) (configureTmpFileName env f) b2,
            t⟩ deferred := by
  revert h
  unfold loadAndRewrite
  dsimp only
  split
  · intro h; simp [leave] at h
  · split
    · intro h; simp [leave] at h
    · split
      · intro h; simp [leave] at h
      · intro _
        exact ⟨_, _, _, rfl⟩

/-- A run of `main` that ends at the formatter or at a rename has opened and
created its five files: the rewrites start in the file system in which the two
temp files are empty. -/
theorem mainRun_late (env : Env) (f : Flags) (w : World)
    (h : (mainRun env f w).exit = Exit.gofmt ∨ (mainRun env f w).exit = Exit.renameApi ∨
      (mainRun env f w).exit = Exit.renameConfigure) :
    ∃ (t : List Event) (deferred : List Handle),
      mainRun env f w =
        loadAndRewrite env f
          ⟨setFile (setFile w.fs (apiTmpFileName env f) (some []))
            (configureTmpFileName env f) (some []), t⟩ deferred := by
  revert h
  unfold mainRun
  dsimp only
  split
  · intro h; simp [leave] at h
  · split
    · intro h; simp [leave] at h
    · split
      · intro h; simp [leave] at h
      · split
        · intro h; simp [leave] at h
        · rename_i hc1
          split
          · intro h; simp [leave] at h
          · split
            · intro h; simp [leave] at h
            · rename_i hc2
              intro _
              rw [create_done hc2, create_done hc1]
              exact ⟨_, _, rfl⟩

theorem apiTmp_ne_api (env : Env) (f : Flags) : apiFileName env f ≠ apiTmpFileName env f := by
  intro h
  have := congrArg List.length h
  simp [apiTmpFileName] at this

/-- C13, as the code has it: when the run ends at the formatter or at a rename
(the formatter changing no file but the two temp files and removing neither),
the configure file has its original content and the configure temp file is on
disk; and unless it is the second rename that failed, the API file has its
original content and the API temp file is on disk as well. -/
theorem originals_untouched (env : Env) (f : Flags) (w : World)
    (hframe : ∀ (fs : FS) (p : Str), p ≠ apiTmpFileName env f → p ≠ configureTmpFileName env f →
      (env.gofmt f.goFmtCmd f.goFmtArg (apiTmpFileName env f) (configureTmpFileName env f)
        fs).2 p = fs p)
    (hkeep : ∀ (fs : FS) (p : Str), (fs p).isSome = true →
      ((env.gofmt f.goFmtCmd f.goFmtArg (apiTmpFileName env f) (configureTmpFileName env f)
        fs).2 p).isSome = true)
    (d1 : configureFileName env f ≠ apiTmpFileName env f)
    (d2 : apiFileName env f ≠ configureTmpFileName env f)
    (d3 : configureFileName env f ≠ configureTmpFileName env f)
    (d4 : configureFileName env f ≠ apiFileName env f)
    (d5 : configureTmpFileName env f ≠ apiTmpFileName env f)
    (hexit : (mainRun env f w).exit = Exit.gofmt ∨ (mainRun env f w).exit = Exit.renameApi ∨
      (mainRun env f w).exit = Exit.renameConfigure) :
    (mainRun env f w).fs (configureFileName env f) = w.fs (configureFileName env f) ∧
    ((mainRun env f w).fs (configureTmpFileName env f)).isSome = true ∧
    ((mainRun env f w).exit ≠ Exit.renameConfigure →
      (mainRun env f w).fs (apiFileName env f) = w.fs (apiFileName env f) ∧
      ((mainRun env f w).fs (apiTmpFileName env f)).isSome = true) := by
  obtain ⟨t, deferred, hm⟩ := mainRun_late env f w hexit
  rw [hm] at hexit ⊢
  obtain ⟨b1, b2, t2, hl⟩ := loadAndRewrite_late env f _ deferred hexit
  rw [hl] at hexit ⊢
  obtain ⟨hA, hB⟩ := formatAndRename_late env f
    ⟨received (received (setFile (setFile w.fs (apiTmpFileName env f) (some []))
      (configureTmpFileName env f) (some [])) (apiTmpFileName env f) b1)
      (configureTmpFileName env f) b2, t2⟩ deferred
  -- the file system the formatter starts in
  have hother : ∀ p, p ≠ apiTmpFileName env f → p ≠ configureTmpFileName env f →
      (env.gofmt f.goFmtCmd f.goFmtArg (apiTmpFileName env f) (configureTmpFileName env f)
        (received (received (setFile (setFile w.fs (apiTmpFileName env f) (some []))
          (configureTmpFileName env f) (some [])) (apiTmpFileName env f) b1)
          (configureTmpFileName env f) b2)).2 p = w.fs p := by
    intro p h1 h2
    rw [hframe _ p h1 h2, received_ne h2, received_ne h1, setFile_ne h2, setFile_ne h1]
  have htmp1 : ((env.gofmt f.goFmtCmd f.goFmtArg (apiTmpFileName env f)
      (configureTmpFileName env f)
      (received (received (setFile (setFile w.fs (apiTmpFileName env f) (some []))
        (configureTmpFileName env f) (some [])) (apiTmpFileName env f) b1)
        (configureTmpFileName env f) b2)).2 (apiTmpFileName env f)).isSome = true :=
    hkeep _ _ (received_isSome _ _ _ _ (received_same _ _ _))
  have htmp2 : ((env.gofmt f.goFmtCmd f.goFmtArg (apiTmpFileName env f)
      (configureTmpFileName env f)
      (received (received (setFile (setFile w.fs (apiTmpFileName env f) (some []))
        (configureTmpFileName env f) (some [])) (apiTmpFileName env f) b1)
        (configureTmpFileName env f) b2)).2 (configureTmpFileName env f)).isSome = true :=
    hkeep _ _ (received_same _ _ _)
  rcases hexit with h | h | h
  · have hfs := hA (Or.inl h)
    rw [hfs]
    exact ⟨hother _ d1 d3, htmp2, fun _ => ⟨hother _ (apiTmp_ne_api env f) d2, htmp1⟩⟩
  · have hfs := hA (Or.inr h)
    rw [hfs]
    exact ⟨hother _ d1 d3, htmp2, fun _ => ⟨hother _ (apiTmp_ne_api env f) d2, htmp1⟩⟩
  · obtain ⟨content, _, hfs⟩ := hB h
    rw [hfs]
    refine ⟨?_, ?_, fun hne => absurd h hne⟩
    · simp only [if_neg d4, if_neg d1]
      exact hother _ d1 d3
    · simp only [if_neg d2.symm, if_neg d5]
      exact htmp2

set_option maxRecDepth 100000 in
theorem originals_untouched_witness :
    (mainRun (sampleEnv (some "exit status 2".toList) (fun _ _ => none)) sampleFlags
      ⟨sampleFS, []⟩).exit = Exit.gofmt ∧
    (mainRun (sampleEnv (some "exit status 2".toList) (fun _ _ => none)) sampleFlags
      ⟨sampleFS, []⟩).fs "gen/restapi/configure_app.go".toList = some "import (\n".toList ∧
    (mainRun (sampleEnv (some "exit status 2".toList) (fun _ _ => none)) sampleFlags
      ⟨sampleFS, []⟩).fs "gen/restapi/operations/app_api.go".toList =
      some "import (\n\tV2OnboardingHandler V2OnboardingHandler\n".toList :=
  have h := originals_untouched (sampleEnv (some "exit status 2".toList) (fun _ _ => none))
    sampleFlags ⟨sampleFS, []⟩ (fun _ _ _ _ => rfl) (fun _ _ h => h)
    (by decide) (by decide) (by decide) (by decide) (by decide) (Or.inl (by decide))
  ⟨by decide, h.1.trans (by decide), (h.2.2 (by decide)).1.trans (by decide)⟩

set_option maxRecDepth 100000 in
/-- C13, as stated, fails when the second rename fails: the first rename has
already put the rewritten text in the place of the API file, and the API temp
file is gone. -/
theorem second_rename_fails :
    (mainRun (sampleEnv none (fun _ dst =>
        if dst = "gen/restapi/configure_app.go".toList then some "permission denied".toList
        else none)) sampleFlags ⟨sampleFS, []⟩).exit = Exit.renameConfigure ∧
    sampleFS "gen/restapi/operations/app_api.go".toList =
      some "import (\n\tV2OnboardingHandler V2OnboardingHandler\n".toList ∧
    (mainRun (sampleEnv none (fun _ dst =>
        if dst = "gen/restapi/configure_app.go".toList then some "permission denied".toList
        else none)) sampleFlags ⟨sampleFS, []⟩).fs "gen/restapi/operations/app_api.go".toList =
      some "import (\n\tonboarding \"app/onboarding\"\n\tV2OnboardingHandler onboarding.OnboardingHandler\n".toList ∧
    (mainRun (sampleEnv none (fun _ dst =>
        if dst = "gen/restapi/configure_app.go".toList then some "permission denied".toList
        else none)) sampleFlags ⟨sampleFS, []⟩).fs
      "gen/restapi/operations/app_api.go.tmp".toList = none := by
  decide

theorem rewriteEvents_no_close (hin hout : Handle) (s : Scan) (out : Dest) (h : Handle) :
    Event.close h ∉ rewriteEvents hin hout s out := by
  unfold rewriteEvents
  cases s.err <;> cases out.writeErr <;> simp

theorem formatAndRename_closes (env : Env) (f : Flags) (w : World) (deferred : List Handle)
    (h : Handle) (hw : Event.close h ∉ w.trace) (hd : h ∉ deferred) :
    Event.close h ∉ (formatAndRename env f w deferred).trace := by
  unfold formatAndRename
  dsimp only
  split
  · simp [leave, hw, hd]
  · split
    · simp [leave, hw, hd]
    · split <;> simp [leave, hw, hd]

theorem loadAndRewrite_closes (env : Env) (f : Flags) (w : World) (deferred : List Handle)
    (h : Handle) (hw : Event.close h ∉ w.trace) (hd : h ∉ deferred) :
    Event.close h ∉ (loadAndRewrite env f w deferred).trace := by
  unfold loadAndRewrite
  dsimp only
  split
  · simp [leave, hw, hd]
  · split
    · simp [leave, hw, hd, rewriteEvents_no_close]
    · split
      · simp [leave, hw, hd, rewriteEvents_no_close]
      · apply formatAndRename_closes _ _ _ _ _ _ hd
        simp [hw, rewriteEvents_no_close]

/-- In no run does `main` call `Close()` on the handle of the configure
source. -/
theorem configureFile_never_closed (env : Env) (f : Flags) (fs : FS) :
    Event.close Handle.configureFile ∉ (mainRun env f ⟨fs, []⟩).trace := by
  unfold mainRun
  dsimp only
  split
  · simp [leave]
  · split
    · simp [leave]
    · split
      · simp [leave]
      · split
        · simp [leave]
        · split
          · simp [leave]
          · split
            · simp [leave]
            · apply loadAndRewrite_closes
              · simp
              · simp

/-! ## The second pass reads the output of the first -/

set_option maxRecDepth 100000 in
/-- A carriage return at the end of a line does not come through a second
pass: the scanner of the first pass leaves one of the two in `x = New...\r\r`,
the first pass writes it, and the scanner of the second pass drops it. -/
theorem second_pass_drops_carriage_return :
    (scanLines "x = NewA(o.context, o.AHandler)\r\r\n".toList).lines =
      ["x = NewA(o.context, o.AHandler)\r".toList] ∧
    apiEmit ⟨[⟨"A".toList, "B".toList, "p".toList, "x/p".toList⟩]⟩
      "x = NewA(o.context, o.AHandler)\r".toList =
      "x = p.NewB(o.context, o.AHandler)\r\n".toList ∧
    (scanLines "x = p.NewB(o.context, o.AHandler)\r\n".toList).lines =
      ["x = p.NewB(o.context, o.AHandler)".toList] ∧
    apiEmit ⟨[⟨"A".toList, "B".toList, "p".toList, "x/p".toList⟩]⟩
      "x = p.NewB(o.context, o.AHandler)".toList =
      "x = p.NewB(o.context, o.AHandler)\n".toList := by
  decide

end Goswagreplace
